import Mathlib

/-!
Verification development for the CT-scan detection pipeline (ct_scan.py).

The embedding models the pure image-processing core: pixels are RGB triples
of naturals, an image is a width, a height and a total pixel function, and
each Python loop is translated to its functional meaning.  Fallible code
(integer division by zero in `get_green_agv`) is modelled with `Option`.
-/

set_option maxHeartbeats 4000000
set_option maxRecDepth 100000

/-- A pixel as simpleimage exposes it: red/green/blue channel values.
(The library's `pixel.x`/`pixel.y` are the coordinates the pixel was fetched
at; the embedding uses the loop indices directly for those.) -/
structure Pixel where
  red : Nat
  green : Nat
  blue : Nat
deriving DecidableEq, Repr

/-- An image: width, height and a total pixel map.  Coordinates outside
`[0,width) x [0,height)` are never read by in-bounds runs of the code. -/
structure Image where
  width : Nat
  height : Nat
  pix : Nat → Nat → Pixel

/-- INTENSITY_MIN = 210 (ct_scan.py line 40). -/
def INTENSITY_MIN : Nat := 210
/-- INTENSITY_MAX = 245 (ct_scan.py line 41). -/
def INTENSITY_MAX : Nat := 245
/-- AREA_SIZE = 100 (ct_scan.py line 42). -/
def AREA_SIZE : Nat := 100
/-- STEP_SIZE = 50 (ct_scan.py line 43). -/
def STEP_SIZE : Nat := 50
/-- IMAGE_WIDTH = 400 (ct_scan.py line 44). -/
def IMAGE_WIDTH : Nat := 400
/-- IMAGE_HEIGHT = 300 (ct_scan.py line 45). -/
def IMAGE_HEIGHT : Nat := 300

/-- Sum of `f 0 + f 1 + ... + f (n-1)`, written with `Nat.rec` so the kernel
evaluates it efficiently on concrete images. -/
def sumTo (f : Nat → Nat) (n : Nat) : Nat :=
  Nat.rec 0 (fun k acc => acc + f k) n

/-- `highlight_areas` (ct_scan.py lines 82-93): every pixel is replaced by the
grayscale of its three channels, and pixels whose grayscale value lies in
[INTENSITY_MIN, INTENSITY_MAX] are overwritten with pure green (0,255,0).
Each pixel depends only on its own old value, so the in-place loop is the
pixelwise map below. -/
def highlight_areas (image : Image) : Image :=
  { image with
    pix := fun x y =>
      let p := image.pix x y
      let average := (p.red + p.green + p.blue) / 3
      if INTENSITY_MIN ≤ average ∧ average ≤ INTENSITY_MAX then ⟨0, 255, 0⟩
      else ⟨average, average, average⟩ }

/-- Accumulator `green_tot` of `get_green_agv` (ct_scan.py lines 156-162):
the green values of all pixels whose green channel is not 255. -/
def greenTot (image : Image) : Nat :=
  sumTo (fun x =>
      sumTo (fun y =>
          if (image.pix x y).green ≠ 255 then (image.pix x y).green else 0)
        image.height)
    image.width

/-- Accumulator `green_highlights` of `get_green_agv` (ct_scan.py
lines 156-162): the number of pixels whose green channel is 255. -/
def greenHighlights (image : Image) : Nat :=
  sumTo (fun x =>
      sumTo (fun y => if (image.pix x y).green ≠ 255 then 0 else 1)
        image.height)
    image.width

/-- The number of pixels whose green channel is not 255 (used to state what
the denominator of `get_green_agv` amounts to). -/
def unmarkedCount (image : Image) : Nat :=
  sumTo (fun x =>
      sumTo (fun y => if (image.pix x y).green ≠ 255 then 1 else 0)
        image.height)
    image.width

/-- Every pixel of the image carries the candidate marker (green = 255). -/
def allMarked (image : Image) : Prop :=
  ∀ x < image.width, ∀ y < image.height, (image.pix x y).green = 255

/-- `get_green_agv` (ct_scan.py lines 151-164): integer average of the green
channel over the non-marked pixels, dividing by `width*height - green_highlights`.
Python raises ZeroDivisionError when that denominator is zero; the embedding
returns `none` there. -/
def get_green_agv (image : Image) : Option Nat :=
  let denom := image.width * image.height - greenHighlights image
  if denom = 0 then none else some (greenTot image / denom)

/-- `get_area` (ct_scan.py lines 109-116): copies the AREA_SIZE x AREA_SIZE
block of `image` whose top-left corner is (n, m).  Every target pixel is
written exactly once, so the copy loop is the pixelwise map below. -/
def get_area (image : Image) (n m : Nat) : Image :=
  { width := AREA_SIZE, height := AREA_SIZE,
    pix := fun x y => image.pix (x + n) (y + m) }

/-- The sensitivity-band selection inlined in `scan_area` (ct_scan.py
lines 126-137): an if/elif chain on the whole-image green average. -/
def select_band (image_green_avg : Nat) : Nat × Nat :=
  if 80 < image_green_avg ∧ image_green_avg < 85 then (108, 110)
  else if 130 < image_green_avg ∧ image_green_avg < 135 then (140, 142)
  else if 105 < image_green_avg ∧ image_green_avg < 110 then (186, 188)
  else (10, 20)

/-- The border marking of `scan_area` on a matching area (ct_scan.py
lines 140-148): the mutation loop sets every pixel of the area whose
coordinates lie on the outermost ring (`pixel.x`/`pixel.y` equal to 0 or
AREA_SIZE-1) to pure red, leaving the rest unchanged.  (The local `highlight`
image built alongside is discarded by the source.) -/
def mark_border (area : Image) : Image :=
  { area with
    pix := fun x y =>
      if y = 0 ∨ y = AREA_SIZE - 1 ∨ x = 0 ∨ x = AREA_SIZE - 1 then ⟨255, 0, 0⟩
      else area.pix x y }

/-- `scan_area` (ct_scan.py lines 118-149): computes the area's green average,
then the whole image's green average, selects the sensitivity band from the
latter, and if the area average lies within the band (inclusive comparisons),
returns the border-marked area and count 1, otherwise the unchanged area and
count 0.  Either average can raise ZeroDivisionError (`none`), the area's
average being computed first. -/
def scan_area (area image : Image) : Option (Image × Nat) :=
  (get_green_agv area).bind fun area_green_avg =>
  (get_green_agv image).map fun image_green_avg =>
    let band := select_band image_green_avg
    if band.1 ≤ area_green_avg ∧ area_green_avg ≤ band.2 then (mark_border area, 1)
    else (area, 0)

/-- `add_area` (ct_scan.py lines 166-180).  The source copies `image` into a
fresh image, then loops x, y over [0, AREA_SIZE) doing, in this order inside
one iteration: write `image[x][y]` at (x, y), then write `red_area[x][y]` at
(x+n, y+m).  The last write to a pixel wins.  A pixel p in the paste region
is written by the paste at iteration (p.x-n, p.y-m); if p also lies in
[0,AREA_SIZE)^2 it is rewritten with `image[p]` at the lexicographically later
iteration (p.x, p.y) whenever (n,m) ≠ (0,0) (when n = m = 0 the two writes
share one iteration and the paste comes second).  So the paste survives
exactly when (n,m) = (0,0) or p is outside the top-left AREA_SIZE square;
everywhere else the pixel holds `image[p]`. -/
def add_area (image red_area : Image) (n m : Nat) : Image :=
  { width := image.width, height := image.height,
    pix := fun x y =>
      if n ≤ x ∧ x < n + AREA_SIZE ∧ m ≤ y ∧ y < m + AREA_SIZE ∧
          ((n = 0 ∧ m = 0) ∨ ¬(x < AREA_SIZE ∧ y < AREA_SIZE)) then
        red_area.pix (x - n) (y - m)
      else image.pix x y }

/-- Python's `range(0, stop, step)` over naturals (empty when `stop = 0`,
matching `range` with a non-positive stop). -/
def pyRange (stop step : Nat) : List Nat :=
  (List.range ((stop + step - 1) / step)).map (fun i => i * step)

/-- The offsets scanned by `find_cases` (ct_scan.py lines 100-101):
x in range(0, width - AREA_SIZE//2, STEP_SIZE) outer, y in
range(0, height - AREA_SIZE//2, STEP_SIZE) inner. -/
def scanOffsets (w h : Nat) : List (Nat × Nat) :=
  (pyRange (w - AREA_SIZE / 2) STEP_SIZE).flatMap fun x =>
    (pyRange (h - AREA_SIZE / 2) STEP_SIZE).map fun y => (x, y)

/-- One iteration of the `find_cases` loop body (ct_scan.py lines 102-106)
on the running state (image, case_count). -/
def find_step (st : Image × Nat) (nm : Nat × Nat) : Option (Image × Nat) :=
  (scan_area (get_area st.1 nm.1 nm.2) st.1).map fun r =>
    (add_area st.1 r.1 nm.1 nm.2, st.2 + r.2)

/-- `find_cases` (ct_scan.py lines 95-107): fold of the loop body over the
scanned offsets, starting from (image, 0).  The offset ranges are computed
from the argument image's dimensions before the loop starts. -/
def find_cases (image : Image) : Option (Image × Nat) :=
  (scanOffsets image.width image.height).foldlM find_step (image, 0)

/-- Hoisted variant of `scan_area` for the refinement claim: identical except
that the whole-image average is supplied instead of recomputed. -/
def scan_area_hoisted (area : Image) (image_green_avg : Nat) : Option (Image × Nat) :=
  (get_green_agv area).map fun area_green_avg =>
    let band := select_band image_green_avg
    if band.1 ≤ area_green_avg ∧ area_green_avg ≤ band.2 then (mark_border area, 1)
    else (area, 0)

/-- One loop iteration of the hoisted variant of `find_cases`. -/
def hoist_step (avg : Nat) (st : Image × Nat) (nm : Nat × Nat) : Option (Image × Nat) :=
  (scan_area_hoisted (get_area st.1 nm.1 nm.2) avg).map fun r =>
    (add_area st.1 r.1 nm.1 nm.2, st.2 + r.2)

/-- Modelled from the spec: `find_cases` with the whole-image green average
computed once at the start of the scan instead of once per scanned window
(the hoisting the spec declares functionally equivalent). -/
def find_cases_hoisted (image : Image) : Option (Image × Nat) :=
  (get_green_agv image).bind fun avg =>
    (scanOffsets image.width image.height).foldlM (hoist_step avg) (image, 0)

/-- `remove_green` (ct_scan.py lines 182-190), with the fresh copy of the
original file passed as an image: every pixel of the detection image whose
red channel equals 255 is written onto the copy of the original at the
centering offset; the write targets are distinct, so the loop is the
pixelwise map below. -/
def remove_green (image original : Image) : Image :=
  { width := original.width, height := original.height,
    pix := fun x y =>
      let dx := (original.width - IMAGE_WIDTH) / 2
      let dy := (original.height - IMAGE_HEIGHT) / 2
      if dx ≤ x ∧ x < dx + image.width ∧ dy ≤ y ∧ y < dy + image.height ∧
          (image.pix (x - dx) (y - dy)).red = 255 then
        image.pix (x - dx) (y - dy)
      else original.pix x y }

/-- All coordinates of a w x h image in the x-outer, y-inner order the
source's nested loops use. -/
def coords (w h : Nat) : List (Nat × Nat) :=
  (List.range w).flatMap fun x => (List.range h).map fun y => (x, y)

/-- `locate_cases` (ct_scan.py lines 203-223): collects the x-coordinates of
pure-red pixels strictly left (resp. right) of `width // 2`, and returns
["left"] / ["right"] / both / neither according to which collections are
nonempty.  (The source's `elif` equals an independent `if`: the two guards
are mutually exclusive.) -/
def locate_cases (image : Image) : List String :=
  let left := ((coords image.width image.height).filter fun p =>
    decide (p.1 < image.width / 2 ∧ image.pix p.1 p.2 = ⟨255, 0, 0⟩)).map Prod.fst
  let right := ((coords image.width image.height).filter fun p =>
    decide (image.width / 2 < p.1 ∧ image.pix p.1 p.2 = ⟨255, 0, 0⟩)).map Prod.fst
  (if left = [] then [] else ["left"]) ++ (if right = [] then [] else ["right"])

/-- Two images agree byte-for-byte: same dimensions and same pixels on the
whole domain. -/
def Image.eqOn (a b : Image) : Prop :=
  a.width = b.width ∧ a.height = b.height ∧
    ∀ x < a.width, ∀ y < a.height, a.pix x y = b.pix x y

/-- The window at offset `nm` does not confirm against band `select_band avg`
(its average may also fail to exist; both runs of the refinement claim abort
there together). -/
def noMatchAt (image : Image) (avg : Nat) (nm : Nat × Nat) : Bool :=
  match get_green_agv (get_area image nm.1 nm.2) with
  | none => true
  | some b => decide (¬ ((select_band avg).1 ≤ b ∧ b ≤ (select_band avg).2))

/-- The window at offset `nm` has a green average and it falls outside band
`select_band avg`. -/
def noMatchStrict (image : Image) (avg : Nat) (nm : Nat × Nat) : Bool :=
  match get_green_agv (get_area image nm.1 nm.2) with
  | none => false
  | some b => decide (¬ ((select_band avg).1 ≤ b ∧ b ≤ (select_band avg).2))

/-- (x, y) lies on the outermost ring of the scanned window at offset `nm`. -/
def ringAt (nm : Nat × Nat) (x y : Nat) : Prop :=
  nm.1 ≤ x ∧ x < nm.1 + AREA_SIZE ∧ nm.2 ≤ y ∧ y < nm.2 + AREA_SIZE ∧
    (x = nm.1 ∨ x = nm.1 + (AREA_SIZE - 1) ∨ y = nm.2 ∨ y = nm.2 + (AREA_SIZE - 1))

/-- (x, y) lies on the outermost ring of some window scanned over a w x h
image. -/
def onRing (w h x y : Nat) : Prop :=
  ∃ nm ∈ scanOffsets w h, ringAt nm x y

/- Concrete images used by the counterexamples and witnesses. -/

/-- A 400x300 working image all of whose pixels have grayscale value 220. -/
def img220 : Image := ⟨400, 300, fun _ _ => ⟨220, 220, 220⟩⟩

/-- A uniform 400x300 image of grayscale value 60 (no window confirms). -/
def U60 : Image := ⟨400, 300, fun _ _ => ⟨60, 60, 60⟩⟩

/-- A 1x1 image whose pixel grayscales to 225, inside the candidate band. -/
def I3 : Image := ⟨1, 1, fun _ _ => ⟨225, 225, 225⟩⟩

/-- A 400x300 detection image whose pixel (0,0) is white (255,255,255) —
red channel 255, but not pure red. -/
def D4 : Image := ⟨400, 300, fun x y => if x = 0 ∧ y = 0 then ⟨255, 255, 255⟩ else ⟨9, 9, 9⟩⟩

/-- A 400x300 original image, uniformly (9,9,9). -/
def O4 : Image := ⟨400, 300, fun _ _ => ⟨9, 9, 9⟩⟩

/-- A 1x1 detection image whose only pixel is (255,7,7): red channel 255 yet
not pure red anywhere. -/
def D8 : Image := ⟨1, 1, fun _ _ => ⟨255, 7, 7⟩⟩

/-- A 400x300 original image, uniformly (9,9,9). -/
def O8 : Image := ⟨400, 300, fun _ _ => ⟨9, 9, 9⟩⟩

/-- A 1x1 detection image holding a green candidate marker (red channel 0). -/
def D8g : Image := ⟨1, 1, fun _ _ => ⟨0, 255, 0⟩⟩

/-- A 1x1 image whose only pixel has green value 7 and is unmarked. -/
def W6 : Image := ⟨1, 1, fun _ _ => ⟨7, 7, 7⟩⟩

/-- A 400x300 image whose whole-image green average is 81 (band (108,110)),
whose window at (0,0) averages 109 (confirmed), and whose window at (300,200)
also averages 109: painting the first window's red ring drops the whole-image
average to 80, so the per-window recomputation changes later band choices. -/
def Eimg : Image := ⟨400, 300, fun x y =>
  if x < 100 ∧ y < 100 then ⟨109, 109, 109⟩
  else if 300 ≤ x ∧ 200 ≤ y then ⟨109, 109, 109⟩
  else if 100 ≤ y ∧ y < 200 then ⟨76, 76, 76⟩
  else ⟨75, 75, 75⟩⟩

/-- `Eimg` after the scan confirms the window at (0,0) and merges its
red-ringed copy back. -/
def I1img : Image := add_area Eimg (mark_border (get_area Eimg 0 0)) 0 0

/-- `I1img` after the hoisted scan also confirms the window at (300,200). -/
def FINimg : Image := add_area I1img (mark_border (get_area I1img 300 200)) 300 200

/-- A 400x300 image whose window at offset (50,0) is uniformly 15 (confirmed
against the fallback band) and whose every other region averages far outside
[10,20]; whole-image average 56 selects the fallback band. -/
def C0img : Image := ⟨400, 300, fun x y =>
  if 50 ≤ x ∧ x < 150 ∧ y < 100 then ⟨15, 15, 15⟩ else ⟨60, 60, 60⟩⟩

/-- `C0img` after the scan confirms the window at (50,0) and merges its
red-ringed copy back (the merge clips the ring inside the top-left square). -/
def C10out : Image := add_area C0img (mark_border (get_area C0img 50 0)) 50 0

/-- The 35 offsets `find_cases` scans over a 400x300 image, in order. -/
def OFF35 : List (Nat × Nat) :=
  [(0, 0), (0, 50), (0, 100), (0, 150), (0, 200),
   (50, 0), (50, 50), (50, 100), (50, 150), (50, 200),
   (100, 0), (100, 50), (100, 100), (100, 150), (100, 200),
   (150, 0), (150, 50), (150, 100), (150, 150), (150, 200),
   (200, 0), (200, 50), (200, 100), (200, 150), (200, 200),
   (250, 0), (250, 50), (250, 100), (250, 150), (250, 200),
   (300, 0), (300, 50), (300, 100), (300, 150), (300, 200)]

/- Basic lemmas about the summation scheme. -/

theorem sumTo_zero (f : Nat → Nat) : sumTo f 0 = 0 := rfl

theorem sumTo_succ (f : Nat → Nat) (n : Nat) : sumTo f (n + 1) = sumTo f n + f n := rfl

theorem sumTo_const (c n : Nat) : sumTo (fun _ => c) n = n * c := by
  induction n with
  | zero => simp [sumTo_zero]
  | succ k ih => rw [sumTo_succ, ih, Nat.succ_mul]

theorem sumTo_add (f g : Nat → Nat) (n : Nat) :
    sumTo (fun i => f i + g i) n = sumTo f n + sumTo g n := by
  induction n with
  | zero => rfl
  | succ k ih => rw [sumTo_succ, sumTo_succ, sumTo_succ, ih]; omega

theorem sumTo_congr (f g : Nat → Nat) (n : Nat) (h : ∀ i < n, f i = g i) :
    sumTo f n = sumTo g n := by
  induction n with
  | zero => rfl
  | succ k ih =>
    rw [sumTo_succ, sumTo_succ, ih (fun i hi => h i (Nat.lt_succ_of_lt hi)),
      h k (Nat.lt_succ_self k)]

theorem sumTo_eq_zero_iff (f : Nat → Nat) (n : Nat) :
    sumTo f n = 0 ↔ ∀ i < n, f i = 0 := by
  induction n with
  | zero => simp [sumTo_zero]
  | succ k ih =>
    rw [sumTo_succ]
    constructor
    · intro h i hi
      rcases Nat.lt_succ_iff_lt_or_eq.mp hi with hlt | heq
      · exact (ih.mp (by omega)) i hlt
      · subst heq; omega
    · intro h
      rw [ih.mpr (fun i hi => h i (Nat.lt_succ_of_lt hi)), h k (Nat.lt_succ_self k)]

/-- Splitting the pixel count: marked plus unmarked pixels cover the image. -/
theorem marks_split (image : Image) :
    greenHighlights image + unmarkedCount image = image.width * image.height := by
  unfold greenHighlights unmarkedCount
  rw [← sumTo_add]
  have h : ∀ x, (fun x =>
      sumTo (fun y => if (image.pix x y).green ≠ 255 then 0 else 1) image.height +
      sumTo (fun y => if (image.pix x y).green ≠ 255 then 1 else 0) image.height) x =
      (fun _ => image.height) x := by
    intro x
    simp only
    rw [← sumTo_add]
    have : ∀ i < image.height,
        ((if (image.pix x i).green ≠ 255 then 0 else 1) +
         (if (image.pix x i).green ≠ 255 then 1 else 0)) = (fun _ => 1) i := by
      intro i _
      split <;> rfl
    rw [sumTo_congr _ _ _ this, sumTo_const, Nat.mul_one]
  rw [sumTo_congr _ _ _ (fun x _ => h x), sumTo_const]

theorem sumTo_le_sumTo (f g : Nat → Nat) (n : Nat) (h : ∀ i < n, f i ≤ g i) :
    sumTo f n ≤ sumTo g n := by
  induction n with
  | zero => exact Nat.le_refl 0
  | succ k ih =>
    rw [sumTo_succ, sumTo_succ]
    exact Nat.add_le_add (ih (fun i hi => h i (Nat.lt_succ_of_lt hi))) (h k (Nat.lt_succ_self k))

theorem sumTo_split (f : Nat → Nat) (m k : Nat) :
    sumTo f (m + k) = sumTo f m + sumTo (fun i => f (m + i)) k := by
  induction k with
  | zero => rfl
  | succ j ih => rw [← Nat.add_assoc, sumTo_succ, sumTo_succ, ih]; omega

/-- Lower bound for a sum from a strip `[c, d)` on which `f` is at least `v`. -/
theorem sumTo_ge_strip (f : Nat → Nat) (c d v n : Nat) (hcd : c ≤ d) (hd : d ≤ n)
    (h : ∀ i, c ≤ i → i < d → v ≤ f i) : (d - c) * v ≤ sumTo f n := by
  have hsplit : n = c + ((d - c) + (n - d)) := by omega
  rw [hsplit, sumTo_split, sumTo_split]
  have hmid : (d - c) * v ≤ sumTo (fun i => f (c + i)) (d - c) := by
    calc (d - c) * v = sumTo (fun _ => v) (d - c) := by rw [sumTo_const]
    _ ≤ sumTo (fun i => f (c + i)) (d - c) :=
        sumTo_le_sumTo _ _ _ (fun i hi => h (c + i) (by omega) (by omega))
  omega

/-- Upper bound for a sum: at most `v` on the strip `[c, d)` and at most `V`
everywhere. -/
theorem sumTo_le_strip (f : Nat → Nat) (c d v V n : Nat) (hcd : c ≤ d) (hd : d ≤ n)
    (hin : ∀ i, c ≤ i → i < d → f i ≤ v) (hall : ∀ i < n, f i ≤ V) :
    sumTo f n ≤ (d - c) * v + (n - (d - c)) * V := by
  have hdecomp : sumTo f n = sumTo f c +
      (sumTo (fun i => f (c + i)) (d - c) +
       sumTo (fun i => f (c + ((d - c) + i))) (n - d)) := by
    conv_lhs => rw [show n = c + ((d - c) + (n - d)) by omega]
    rw [sumTo_split, sumTo_split]
  have h1 : sumTo f c ≤ c * V := by
    calc sumTo f c ≤ sumTo (fun _ => V) c :=
          sumTo_le_sumTo _ _ _ (fun i hi => hall i (by omega))
    _ = c * V := sumTo_const V c
  have h2 : sumTo (fun i => f (c + i)) (d - c) ≤ (d - c) * v := by
    calc sumTo (fun i => f (c + i)) (d - c) ≤ sumTo (fun _ => v) (d - c) :=
          sumTo_le_sumTo _ _ _ (fun i hi => hin (c + i) (by omega) (by omega))
    _ = (d - c) * v := sumTo_const v (d - c)
  have h3 : sumTo (fun i => f (c + ((d - c) + i))) (n - d) ≤ (n - d) * V := by
    calc sumTo (fun i => f (c + ((d - c) + i))) (n - d) ≤ sumTo (fun _ => V) (n - d) :=
          sumTo_le_sumTo _ _ _ (fun i hi => hall _ (by omega))
    _ = (n - d) * V := sumTo_const V (n - d)
  have hcomb : c * V + (n - d) * V ≤ (n - (d - c)) * V := by
    rw [← Nat.add_mul]
    exact Nat.mul_le_mul_right V (by omega)
  omega

/-- A sum whose summands are all equal to `v` on the domain. -/
theorem sumTo_eq_const (f : Nat → Nat) (v n : Nat) (h : ∀ i < n, f i = v) :
    sumTo f n = n * v := by
  rw [sumTo_congr f (fun _ => v) n h, sumTo_const]

/- Plain green-channel totals used to state the evaluated averages. -/

/-- Green total of the AREA_SIZE x AREA_SIZE window of `img` at (n, m). -/
def areaTot (img : Image) (n m : Nat) : Nat :=
  sumTo (fun x => sumTo (fun y => (img.pix (x + n) (y + m)).green) AREA_SIZE) AREA_SIZE

/-- Green total of the whole image. -/
def imageTot (img : Image) : Nat :=
  sumTo (fun x => sumTo (fun y => (img.pix x y).green) img.height) img.width

theorem greenHighlights_eq_zero (img : Image)
    (h : ∀ x < img.width, ∀ y < img.height, (img.pix x y).green ≠ 255) :
    greenHighlights img = 0 := by
  unfold greenHighlights
  rw [sumTo_eq_const _ 0 _ (fun x hx => ?_), Nat.mul_zero]
  rw [sumTo_eq_const _ 0 _ (fun y hy => ?_), Nat.mul_zero]
  rw [if_pos (h x hx y hy)]

theorem greenTot_eq_imageTot (img : Image)
    (h : ∀ x < img.width, ∀ y < img.height, (img.pix x y).green ≠ 255) :
    greenTot img = imageTot img := by
  unfold greenTot imageTot
  refine sumTo_congr _ _ _ (fun x hx => ?_)
  refine sumTo_congr _ _ _ (fun y hy => ?_)
  rw [if_pos (h x hx y hy)]

/-- With no marked pixel and a nonempty image, `get_green_agv` is the plain
integer mean of the green channel. -/
theorem image_avg_eq (img : Image)
    (h : ∀ x < img.width, ∀ y < img.height, (img.pix x y).green ≠ 255)
    (hwh : img.width * img.height ≠ 0) :
    get_green_agv img = some (imageTot img / (img.width * img.height)) := by
  unfold get_green_agv
  rw [greenHighlights_eq_zero img h, greenTot_eq_imageTot img h, Nat.sub_zero,
    if_neg hwh]

/-- A window is itself an image; its unmarked green mean is `areaTot` divided
by the window size. -/
theorem area_avg_eq (img : Image) (n m : Nat)
    (h : ∀ x < AREA_SIZE, ∀ y < AREA_SIZE, (img.pix (x + n) (y + m)).green ≠ 255) :
    get_green_agv (get_area img n m) = some (areaTot img n m / (AREA_SIZE * AREA_SIZE)) := by
  have h' : ∀ x < (get_area img n m).width, ∀ y < (get_area img n m).height,
      ((get_area img n m).pix x y).green ≠ 255 := h
  have hwh : (get_area img n m).width * (get_area img n m).height ≠ 0 := by
    show AREA_SIZE * AREA_SIZE ≠ 0
    decide
  rw [image_avg_eq (get_area img n m) h' hwh]
  rfl

/-- A window all of whose pixels have green value `v ≠ 255` averages to `v`. -/
theorem area_avg_const (img : Image) (n m v : Nat) (hv : v ≠ 255)
    (h : ∀ x < AREA_SIZE, ∀ y < AREA_SIZE, (img.pix (x + n) (y + m)).green = v) :
    get_green_agv (get_area img n m) = some v := by
  rw [area_avg_eq img n m (fun x hx y hy => by rw [h x hx y hy]; exact hv)]
  have ht : areaTot img n m = AREA_SIZE * AREA_SIZE * v := by
    unfold areaTot
    rw [sumTo_eq_const _ (AREA_SIZE * v) _ (fun x hx => ?_)]
    · rw [← Nat.mul_assoc]
    · rw [sumTo_eq_const _ v _ (fun y hy => h x hx y hy)]
  rw [ht, Nat.mul_div_cancel_left v (by decide)]

/-- An image all of whose pixels have green value `v ≠ 255` averages to `v`. -/
theorem image_avg_const (img : Image) (v : Nat) (hv : v ≠ 255)
    (hwh : img.width * img.height ≠ 0)
    (h : ∀ x < img.width, ∀ y < img.height, (img.pix x y).green = v) :
    get_green_agv img = some v := by
  rw [image_avg_eq img (fun x hx y hy => by rw [h x hx y hy]; exact hv) hwh]
  have ht : imageTot img = img.width * img.height * v := by
    unfold imageTot
    rw [sumTo_eq_const _ (img.height * v) _ (fun x hx => ?_)]
    · rw [← Nat.mul_assoc]
    · rw [sumTo_eq_const _ v _ (fun y hy => h x hx y hy)]
  rw [ht, Nat.mul_div_cancel_left v (Nat.pos_of_ne_zero hwh)]

/- Small helpers for the Option monad folds used by the scan. -/

theorem optBind_some {α β : Type} (a : α) (f : α → Option β) :
    (Option.some a).bind f = f a := rfl

theorem optMap_some {α β : Type} (a : α) (f : α → β) :
    (Option.some a).map f = some (f a) := rfl

theorem foldlM_opt_nil {α β : Type} (f : β → α → Option β) (b : β) :
    List.foldlM f b [] = some b := rfl

theorem foldlM_opt_cons {α β : Type} (f : β → α → Option β) (a : α) (l : List α) (b : β) :
    List.foldlM f b (a :: l) = (f b a).bind fun s => List.foldlM f s l := rfl

theorem foldlM_opt_append {α β : Type} (f : β → α → Option β) (l1 l2 : List α) (b : β) :
    List.foldlM f b (l1 ++ l2) = (List.foldlM f b l1).bind fun s => List.foldlM f s l2 := by
  induction l1 generalizing b with
  | nil => rfl
  | cons a l ih =>
    rw [List.cons_append, foldlM_opt_cons, foldlM_opt_cons]
    cases h : f b a with
    | none => rfl
    | some s => rw [optBind_some, optBind_some, ih s]

/-- Merging back the unmodified sampled window is the identity: in the region
where the paste survives it rewrites each pixel with itself, and everywhere
else the source pixel is kept. -/
theorem add_area_get_area (img : Image) (n m : Nat) :
    add_area img (get_area img n m) n m = img := by
  have hpix : (fun x y =>
      if n ≤ x ∧ x < n + AREA_SIZE ∧ m ≤ y ∧ y < m + AREA_SIZE ∧
          ((n = 0 ∧ m = 0) ∨ ¬(x < AREA_SIZE ∧ y < AREA_SIZE)) then
        (get_area img n m).pix (x - n) (y - m)
      else img.pix x y) = img.pix := by
    funext x y
    split
    · next h =>
      show img.pix (x - n + n) (y - m + m) = img.pix x y
      rw [Nat.sub_add_cancel h.1, Nat.sub_add_cancel h.2.2.1]
    · rfl
  show Image.mk img.width img.height _ = img
  rw [hpix]

theorem scan_area_eq_match (area image : Image) (b a : Nat)
    (hb : get_green_agv area = some b) (ha : get_green_agv image = some a)
    (hin : (select_band a).1 ≤ b ∧ b ≤ (select_band a).2) :
    scan_area area image = some (mark_border area, 1) := by
  simp only [scan_area, hb, ha, optBind_some, optMap_some]
  rw [if_pos hin]

theorem scan_area_eq_nomatch (area image : Image) (b a : Nat)
    (hb : get_green_agv area = some b) (ha : get_green_agv image = some a)
    (hout : ¬ ((select_band a).1 ≤ b ∧ b ≤ (select_band a).2)) :
    scan_area area image = some (area, 0) := by
  simp only [scan_area, hb, ha, optBind_some, optMap_some]
  rw [if_neg hout]

theorem find_step_eq_match (img : Image) (c : Nat) (nm : Nat × Nat) (b a : Nat)
    (hb : get_green_agv (get_area img nm.1 nm.2) = some b)
    (ha : get_green_agv img = some a)
    (hin : (select_band a).1 ≤ b ∧ b ≤ (select_band a).2) :
    find_step (img, c) nm =
      some (add_area img (mark_border (get_area img nm.1 nm.2)) nm.1 nm.2, c + 1) := by
  simp only [find_step, scan_area_eq_match (get_area img nm.1 nm.2) img b a hb ha hin,
    optMap_some]

theorem find_step_eq_nomatch (img : Image) (c : Nat) (nm : Nat × Nat) (b a : Nat)
    (hb : get_green_agv (get_area img nm.1 nm.2) = some b)
    (ha : get_green_agv img = some a)
    (hout : ¬ ((select_band a).1 ≤ b ∧ b ≤ (select_band a).2)) :
    find_step (img, c) nm = some (img, c) := by
  simp only [find_step, scan_area_eq_nomatch (get_area img nm.1 nm.2) img b a hb ha hout,
    optMap_some, add_area_get_area, Nat.add_zero]

theorem hoist_step_eq_match (avg : Nat) (img : Image) (c : Nat) (nm : Nat × Nat) (b : Nat)
    (hb : get_green_agv (get_area img nm.1 nm.2) = some b)
    (hin : (select_band avg).1 ≤ b ∧ b ≤ (select_band avg).2) :
    hoist_step avg (img, c) nm =
      some (add_area img (mark_border (get_area img nm.1 nm.2)) nm.1 nm.2, c + 1) := by
  simp only [hoist_step, scan_area_hoisted, hb, optMap_some]
  rw [if_pos hin]

theorem hoist_step_eq_nomatch (avg : Nat) (img : Image) (c : Nat) (nm : Nat × Nat) (b : Nat)
    (hb : get_green_agv (get_area img nm.1 nm.2) = some b)
    (hout : ¬ ((select_band avg).1 ≤ b ∧ b ≤ (select_band avg).2)) :
    hoist_step avg (img, c) nm = some (img, c) := by
  simp only [hoist_step, scan_area_hoisted, hb, optMap_some]
  rw [if_neg hout]
  simp only [optMap_some, add_area_get_area, Nat.add_zero]

/-- A run of consecutive windows none of which confirms leaves the state
unchanged (per-window recomputation variant: the image average is `A` at every
step since the image does not change while nothing confirms). -/
theorem fold_nomatch (img : Image) (A : Nat) (hA : get_green_agv img = some A) :
    ∀ (l : List (Nat × Nat)), (∀ nm ∈ l, noMatchStrict img A nm = true) →
    ∀ c, List.foldlM find_step (img, c) l = some (img, c) := by
  intro l
  induction l with
  | nil => intro _ c; rfl
  | cons nm l ih =>
    intro h c
    have hnm := h nm (List.mem_cons_self nm l)
    cases hb : get_green_agv (get_area img nm.1 nm.2) with
    | none =>
      simp only [noMatchStrict, hb] at hnm
      exact Bool.noConfusion hnm
    | some b =>
      have hout : ¬ ((select_band A).1 ≤ b ∧ b ≤ (select_band A).2) := by
        simp only [noMatchStrict, hb, decide_eq_true_eq] at hnm
        exact hnm
      rw [foldlM_opt_cons, find_step_eq_nomatch img c nm b A hb hA hout, optBind_some]
      exact ih (fun p hp => h p (List.mem_cons_of_mem nm hp)) c

/-- Hoisted analogue of `fold_nomatch`. -/
theorem fold_nomatch_h (img : Image) (A : Nat) :
    ∀ (l : List (Nat × Nat)), (∀ nm ∈ l, noMatchStrict img A nm = true) →
    ∀ c, List.foldlM (hoist_step A) (img, c) l = some (img, c) := by
  intro l
  induction l with
  | nil => intro _ c; rfl
  | cons nm l ih =>
    intro h c
    have hnm := h nm (List.mem_cons_self nm l)
    cases hb : get_green_agv (get_area img nm.1 nm.2) with
    | none =>
      simp only [noMatchStrict, hb] at hnm
      exact Bool.noConfusion hnm
    | some b =>
      have hout : ¬ ((select_band A).1 ≤ b ∧ b ≤ (select_band A).2) := by
        simp only [noMatchStrict, hb, decide_eq_true_eq] at hnm
        exact hnm
      rw [foldlM_opt_cons, hoist_step_eq_nomatch A img c nm b hb hout, optBind_some]
      exact ih (fun p hp => h p (List.mem_cons_of_mem nm hp)) c

/-- Turning `get_green_agv` bounds into a non-confirmation certificate. -/
theorem noMatchStrict_of_bounds (img : Image) (A : Nat) (nm : Nat × Nat)
    (b s1 s2 : Nat) (hb : get_green_agv (get_area img nm.1 nm.2) = some b)
    (hband : select_band A = (s1, s2)) (h : b < s1 ∨ s2 < b) :
    noMatchStrict img A nm = true := by
  simp only [noMatchStrict, hb, hband, decide_eq_true_eq]
  omega

/- Closed green-channel forms of the concrete images. -/

theorem Eimg_green (x y : Nat) : (Eimg.pix x y).green =
    if x < 100 ∧ y < 100 then 109
    else if 300 ≤ x ∧ 200 ≤ y then 109
    else if 100 ≤ y ∧ y < 200 then 76 else 75 := by
  show (if x < 100 ∧ y < 100 then (⟨109, 109, 109⟩ : Pixel)
    else if 300 ≤ x ∧ 200 ≤ y then ⟨109, 109, 109⟩
    else if 100 ≤ y ∧ y < 200 then ⟨76, 76, 76⟩ else ⟨75, 75, 75⟩).green = _
  split_ifs <;> rfl

theorem C0img_green (x y : Nat) : (C0img.pix x y).green =
    if 50 ≤ x ∧ x < 150 ∧ y < 100 then 15 else 60 := by
  show (if 50 ≤ x ∧ x < 150 ∧ y < 100 then (⟨15, 15, 15⟩ : Pixel)
    else ⟨60, 60, 60⟩).green = _
  split_ifs <;> rfl

theorem I1img_green (x y : Nat) : (I1img.pix x y).green =
    if x < 100 ∧ y < 100 then
      (if y = 0 ∨ y = 99 ∨ x = 0 ∨ x = 99 then 0 else 109)
    else if 300 ≤ x ∧ 200 ≤ y then 109
    else if 100 ≤ y ∧ y < 200 then 76 else 75 := by
  have hred : I1img.pix x y =
      if 0 ≤ x ∧ x < 0 + 100 ∧ 0 ≤ y ∧ y < 0 + 100 ∧
          ((0 = 0 ∧ 0 = 0) ∨ ¬(x < 100 ∧ y < 100)) then
        (if y - 0 = 0 ∨ y - 0 = 100 - 1 ∨ x - 0 = 0 ∨ x - 0 = 100 - 1 then (⟨255, 0, 0⟩ : Pixel)
         else Eimg.pix (x - 0 + 0) (y - 0 + 0))
      else Eimg.pix x y := rfl
  rw [hred]
  simp only [apply_ite Pixel.green, Nat.sub_zero, Nat.add_zero, Nat.zero_add,
    Nat.zero_le, true_and, and_true, eq_self_iff_true, true_or, or_true]
  rw [Eimg_green x y]
  split_ifs <;> rfl

theorem C10out_green (x y : Nat) : (C10out.pix x y).green =
    if 100 ≤ x ∧ x < 150 ∧ y < 100 then
      (if y = 0 ∨ y = 99 ∨ x = 149 then 0 else 15)
    else if 50 ≤ x ∧ x < 150 ∧ y < 100 then 15 else 60 := by
  have hred : C10out.pix x y =
      if 50 ≤ x ∧ x < 50 + 100 ∧ 0 ≤ y ∧ y < 0 + 100 ∧
          ((50 = 0 ∧ 0 = 0) ∨ ¬(x < 100 ∧ y < 100)) then
        (if y - 0 = 0 ∨ y - 0 = 100 - 1 ∨ x - 50 = 0 ∨ x - 50 = 100 - 1 then (⟨255, 0, 0⟩ : Pixel)
         else C0img.pix (x - 50 + 50) (y - 0 + 0))
      else C0img.pix x y := rfl
  rw [hred]
  rw [if_congr (show (50 ≤ x ∧ x < 50 + 100 ∧ 0 ≤ y ∧ y < 0 + 100 ∧
      ((50 = 0 ∧ 0 = 0) ∨ ¬(x < 100 ∧ y < 100))) ↔
      (50 ≤ x ∧ x < 150 ∧ y < 100 ∧ 100 ≤ x) from by omega) rfl rfl]
  split_ifs <;> first | rfl | omega | (rw [C0img_green]; split_ifs <;> omega)

/-- C5: `select_band` is total and deterministic: every integer whole-image
average is mapped to exactly one of the four band outcomes — (80,85) to
(108,110), (130,135) to (140,142), (105,110) to (186,188), everything else to
the fallback (10,20) — and the boundary values 80, 85, 130, 135, 105, 110 all
fall to the fallback band. -/
theorem C5_select_band_total :
    (∀ a : Nat,
      ((80 < a ∧ a < 85) → select_band a = (108, 110)) ∧
      ((130 < a ∧ a < 135) → select_band a = (140, 142)) ∧
      ((105 < a ∧ a < 110) → select_band a = (186, 188)) ∧
      (¬(80 < a ∧ a < 85) ∧ ¬(130 < a ∧ a < 135) ∧ ¬(105 < a ∧ a < 110) →
        select_band a = (10, 20)) ∧
      (select_band a = (108, 110) ∨ select_band a = (140, 142) ∨
       select_band a = (186, 188) ∨ select_band a = (10, 20))) ∧
    select_band 80 = (10, 20) ∧ select_band 85 = (10, 20) ∧
    select_band 130 = (10, 20) ∧ select_band 135 = (10, 20) ∧
    select_band 105 = (10, 20) ∧ select_band 110 = (10, 20) := by
  refine ⟨fun a => ?_, by decide, by decide, by decide, by decide, by decide, by decide⟩
  unfold select_band
  split_ifs with h1 h2 h3
  · exact ⟨fun _ => rfl, fun h => by exfalso; omega, fun h => by exfalso; omega,
      fun h => absurd h1 h.1, Or.inl rfl⟩
  · exact ⟨fun h => absurd h h1, fun _ => rfl, fun h => by exfalso; omega,
      fun h => absurd h2 h.2.1, Or.inr (Or.inl rfl)⟩
  · exact ⟨fun h => absurd h h1, fun h => absurd h h2, fun _ => rfl,
      fun h => absurd h3 h.2.2, Or.inr (Or.inr (Or.inl rfl))⟩
  · exact ⟨fun h => absurd h h1, fun h => absurd h h2, fun h => absurd h h3,
      fun _ => rfl, Or.inr (Or.inr (Or.inr rfl))⟩

/-- C9: every offset produced by the scan over the 400x300 working resolution
keeps the sampled AREA_SIZE window fully inside the image, so every pixel read
of the region sampling is in bounds. -/
theorem C9_offsets_in_bounds :
    ∀ nm ∈ scanOffsets IMAGE_WIDTH IMAGE_HEIGHT,
      nm.1 + AREA_SIZE ≤ IMAGE_WIDTH ∧ nm.2 + AREA_SIZE ≤ IMAGE_HEIGHT ∧
      ∀ x < AREA_SIZE, ∀ y < AREA_SIZE,
        x + nm.1 < IMAGE_WIDTH ∧ y + nm.2 < IMAGE_HEIGHT := by
  intro nm hmem
  have hOFF : scanOffsets IMAGE_WIDTH IMAGE_HEIGHT = OFF35 := by decide
  rw [hOFF] at hmem
  have hbound : ∀ p ∈ OFF35, p.1 ≤ 300 ∧ p.2 ≤ 200 := by decide
  have h := hbound nm hmem
  have h1 : nm.1 ≤ 300 := h.1
  have h2 : nm.2 ≤ 200 := h.2
  refine ⟨?_, ?_, fun x hx y hy => ⟨?_, ?_⟩⟩
  · show nm.1 + 100 ≤ 400; omega
  · show nm.2 + 100 ≤ 300; omega
  · have hx' : x < 100 := hx
    show x + nm.1 < 400; omega
  · have hy' : y < 100 := hy
    show y + nm.2 < 300; omega

/-- C9 witness: the first scanned offset (0,0) keeps its window in bounds. -/
theorem C9_offsets_in_bounds_witness :
    ((0, 0) : Nat × Nat).1 + AREA_SIZE ≤ IMAGE_WIDTH ∧
    ((0, 0) : Nat × Nat).2 + AREA_SIZE ≤ IMAGE_HEIGHT ∧
    ∀ x < AREA_SIZE, ∀ y < AREA_SIZE,
      x + ((0, 0) : Nat × Nat).1 < IMAGE_WIDTH ∧ y + ((0, 0) : Nat × Nat).2 < IMAGE_HEIGHT :=
  C9_offsets_in_bounds (0, 0) (by decide)

/-- C3 counterexample: the pixel of `I3` is marked (0,255,0) by `classify`,
yet re-running `classify` on that output grays it to (85,85,85) — the
grayscale-average check is not bypassed and the candidate marker does not
survive. -/
theorem C3_cex_rerun_unmarks :
    (highlight_areas I3).pix 0 0 = ⟨0, 255, 0⟩ ∧
    (highlight_areas (highlight_areas I3)).pix 0 0 = ⟨85, 85, 85⟩ :=
  ⟨rfl, rfl⟩

/-- C3 amended: re-running `classify` on its own output re-applies the
grayscale check to every candidate marker: a pixel the first run forced to
(0,255,0) averages to (0+255+0)//3 = 85, falls outside [210,245], and becomes
the gray pixel (85,85,85) on the re-run. -/
theorem C3_amended_rerun_grays :
    ∀ (img : Image) (x y : Nat),
      (highlight_areas img).pix x y = ⟨0, 255, 0⟩ →
      (highlight_areas (highlight_areas img)).pix x y = ⟨85, 85, 85⟩ := by
  intro img x y h
  show (let p := (highlight_areas img).pix x y
        let average := (p.red + p.green + p.blue) / 3
        if INTENSITY_MIN ≤ average ∧ average ≤ INTENSITY_MAX then (⟨0, 255, 0⟩ : Pixel)
        else ⟨average, average, average⟩) = ⟨85, 85, 85⟩
  rw [h]
  decide

/-- C3 amended witness at the concrete marked image `I3`. -/
theorem C3_amended_rerun_grays_witness :
    (highlight_areas (highlight_areas I3)).pix 0 0 = ⟨85, 85, 85⟩ :=
  C3_amended_rerun_grays I3 0 0 (by rfl)

/-- C4 counterexample: the detection pixel (255,255,255) at (0,0) of `D4` is
not pure red, yet `remove_green` transfers it onto the original `O4` (whose
pixel there is (9,9,9)): the transfer tests only the red channel. -/
theorem C4_cex_white_transferred :
    D4.pix 0 0 = ⟨255, 255, 255⟩ ∧ O4.pix 0 0 = ⟨9, 9, 9⟩ ∧
    (remove_green D4 O4).pix 0 0 = ⟨255, 255, 255⟩ :=
  ⟨rfl, rfl, rfl⟩

/-- C4 amended: `remove_green` copies the original and transfers exactly the
detection pixels whose red channel equals 255 (pure red or not) at the
centering offset; every pixel with red ≠ 255 — green candidate markers
included — is discarded, leaving the original pixel. -/
theorem C4_amended_red_channel_rule :
    ∀ (image original : Image) (u v : Nat), u < image.width → v < image.height →
      (((image.pix u v).red = 255 →
        (remove_green image original).pix (u + (original.width - IMAGE_WIDTH) / 2)
          (v + (original.height - IMAGE_HEIGHT) / 2) = image.pix u v) ∧
       ((image.pix u v).red ≠ 255 →
        (remove_green image original).pix (u + (original.width - IMAGE_WIDTH) / 2)
          (v + (original.height - IMAGE_HEIGHT) / 2) =
          original.pix (u + (original.width - IMAGE_WIDTH) / 2)
            (v + (original.height - IMAGE_HEIGHT) / 2))) := by
  intro image original u v hu hv
  have hred : (remove_green image original).pix (u + (original.width - IMAGE_WIDTH) / 2)
      (v + (original.height - IMAGE_HEIGHT) / 2) =
      if (original.width - IMAGE_WIDTH) / 2 ≤ u + (original.width - IMAGE_WIDTH) / 2 ∧
          u + (original.width - IMAGE_WIDTH) / 2 < (original.width - IMAGE_WIDTH) / 2 + image.width ∧
          (original.height - IMAGE_HEIGHT) / 2 ≤ v + (original.height - IMAGE_HEIGHT) / 2 ∧
          v + (original.height - IMAGE_HEIGHT) / 2 < (original.height - IMAGE_HEIGHT) / 2 + image.height ∧
          (image.pix (u + (original.width - IMAGE_WIDTH) / 2 - (original.width - IMAGE_WIDTH) / 2)
            (v + (original.height - IMAGE_HEIGHT) / 2 - (original.height - IMAGE_HEIGHT) / 2)).red = 255 then
        image.pix (u + (original.width - IMAGE_WIDTH) / 2 - (original.width - IMAGE_WIDTH) / 2)
          (v + (original.height - IMAGE_HEIGHT) / 2 - (original.height - IMAGE_HEIGHT) / 2)
      else original.pix (u + (original.width - IMAGE_WIDTH) / 2)
        (v + (original.height - IMAGE_HEIGHT) / 2) := rfl
  rw [hred, Nat.add_sub_cancel, Nat.add_sub_cancel]
  constructor
  · intro h
    rw [if_pos ⟨Nat.le_add_left _ u, by omega, Nat.le_add_left _ v, by omega, h⟩]
  · intro h
    rw [if_neg]
    intro hcond
    exact h hcond.2.2.2.2

/-- C4 amended witness: the red-channel-255 pixel of `D4` is transferred and
would not be were the test `red ≠ 255`. -/
theorem C4_amended_red_channel_rule_witness :
    (((D4.pix 0 0).red = 255 →
      (remove_green D4 O4).pix (0 + (O4.width - IMAGE_WIDTH) / 2)
        (0 + (O4.height - IMAGE_HEIGHT) / 2) = D4.pix 0 0) ∧
     ((D4.pix 0 0).red ≠ 255 →
      (remove_green D4 O4).pix (0 + (O4.width - IMAGE_WIDTH) / 2)
        (0 + (O4.height - IMAGE_HEIGHT) / 2) =
        O4.pix (0 + (O4.width - IMAGE_WIDTH) / 2) (0 + (O4.height - IMAGE_HEIGHT) / 2))) :=
  C4_amended_red_channel_rule D4 O4 0 0 (by decide) (by decide)

/-- C8 counterexample: `D8` is a detection image with no pure-red (255,0,0)
pixel — its only pixel is (255,7,7) — and `O8` is a 400x300 original; yet
`remove_green` transfers that pixel, so the result is not byte-identical to
the original. -/
theorem C8_cex_red255_not_pure :
    D8.width = 1 ∧ D8.height = 1 ∧ D8.pix 0 0 = ⟨255, 7, 7⟩ ∧
    O8.width = 400 ∧ O8.height = 300 ∧ O8.pix 0 0 = ⟨9, 9, 9⟩ ∧
    (remove_green D8 O8).pix 0 0 = ⟨255, 7, 7⟩ :=
  ⟨rfl, rfl, rfl, rfl, rfl, rfl, rfl⟩

/-- C8 amended: when the detection image has no pixel whose red channel
equals 255, `remove_green` returns a byte-identical copy of the (at least
400x300) original. -/
theorem C8_amended_roundtrip :
    ∀ (image original : Image),
      IMAGE_WIDTH ≤ original.width → IMAGE_HEIGHT ≤ original.height →
      (∀ u < image.width, ∀ v < image.height, (image.pix u v).red ≠ 255) →
      Image.eqOn (remove_green image original) original := by
  intro image original hw hh hno
  refine ⟨rfl, rfl, fun x hx y hy => ?_⟩
  show (if (original.width - IMAGE_WIDTH) / 2 ≤ x ∧
      x < (original.width - IMAGE_WIDTH) / 2 + image.width ∧
      (original.height - IMAGE_HEIGHT) / 2 ≤ y ∧
      y < (original.height - IMAGE_HEIGHT) / 2 + image.height ∧
      (image.pix (x - (original.width - IMAGE_WIDTH) / 2)
        (y - (original.height - IMAGE_HEIGHT) / 2)).red = 255 then
      image.pix (x - (original.width - IMAGE_WIDTH) / 2)
        (y - (original.height - IMAGE_HEIGHT) / 2)
    else original.pix x y) = original.pix x y
  rw [if_neg]
  intro hcond
  exact hno _ (by omega) _ (by omega) hcond.2.2.2.2

/-- C8 amended witness: a detection image holding only a green candidate
marker round-trips the original byte-for-byte. -/
theorem C8_amended_roundtrip_witness : Image.eqOn (remove_green D8g O8) O8 :=
  C8_amended_roundtrip D8g O8 (by decide) (by decide) (by decide)

/-- The denominator of `get_green_agv` counts exactly the unmarked pixels. -/
theorem unmarkedCount_eq_zero_iff (img : Image) :
    unmarkedCount img = 0 ↔ allMarked img := by
  unfold unmarkedCount allMarked
  rw [sumTo_eq_zero_iff]
  constructor
  · intro h x hx y hy
    have hy' := (sumTo_eq_zero_iff _ _).mp (h x hx) y hy
    by_contra hne
    rw [if_pos hne] at hy'
    exact one_ne_zero hy'
  · intro h x hx
    rw [sumTo_eq_zero_iff]
    intro y hy
    rw [if_neg (not_not_intro (h x hx y hy))]

/-- C6: `average_marked_intensity` (get_green_agv) fails with the
divide-by-zero `none` exactly when every pixel of the image is marked, and
otherwise returns the integer-truncated mean of the green channel over the
pixels whose green is not 255: marked pixels are excluded from the sum
(`greenTot`) and from the denominator, which equals the unmarked-pixel count. -/
theorem C6_avg_spec :
    ∀ img : Image,
      (get_green_agv img = none ↔ allMarked img) ∧
      (¬ allMarked img → get_green_agv img = some (greenTot img / unmarkedCount img)) := by
  intro img
  have hsplit := marks_split img
  have hdenom : img.width * img.height - greenHighlights img = unmarkedCount img := by omega
  have hiff := unmarkedCount_eq_zero_iff img
  simp only [get_green_agv, hdenom]
  constructor
  · constructor
    · intro h0
      by_cases hz : unmarkedCount img = 0
      · exact hiff.mp hz
      · rw [if_neg hz] at h0
        exact Option.noConfusion h0
    · intro hall
      rw [if_pos (hiff.mpr hall)]
  · intro hnot
    rw [if_neg (fun hz => hnot (hiff.mp hz))]

/-- The full characterization of `locate_cases`: "left" appears exactly when a
pure-red pixel lies strictly left of width/2, then "right" exactly when one
lies strictly right of it. -/
theorem locate_cases_characterization (img : Image) :
    locate_cases img =
      (if ∃ p ∈ coords img.width img.height,
          p.1 < img.width / 2 ∧ img.pix p.1 p.2 = ⟨255, 0, 0⟩ then ["left"] else []) ++
      (if ∃ p ∈ coords img.width img.height,
          img.width / 2 < p.1 ∧ img.pix p.1 p.2 = ⟨255, 0, 0⟩ then ["right"] else []) := by
  simp only [locate_cases]
  have hleft : (((coords img.width img.height).filter fun p =>
      decide (p.1 < img.width / 2 ∧ img.pix p.1 p.2 = ⟨255, 0, 0⟩)).map Prod.fst = []) ↔
      ¬ ∃ p ∈ coords img.width img.height,
        p.1 < img.width / 2 ∧ img.pix p.1 p.2 = ⟨255, 0, 0⟩ := by
    rw [List.map_eq_nil_iff, List.filter_eq_nil_iff]
    simp only [decide_eq_true_eq]
    constructor
    · rintro h ⟨p, hp, hc⟩
      exact h p hp hc
    · intro h p hp hc
      exact h ⟨p, hp, hc⟩
  have hright : (((coords img.width img.height).filter fun p =>
      decide (img.width / 2 < p.1 ∧ img.pix p.1 p.2 = ⟨255, 0, 0⟩)).map Prod.fst = []) ↔
      ¬ ∃ p ∈ coords img.width img.height,
        img.width / 2 < p.1 ∧ img.pix p.1 p.2 = ⟨255, 0, 0⟩ := by
    rw [List.map_eq_nil_iff, List.filter_eq_nil_iff]
    simp only [decide_eq_true_eq]
    constructor
    · rintro h ⟨p, hp, hc⟩
      exact h p hp hc
    · intro h p hp hc
      exact h ⟨p, hp, hc⟩
  by_cases hE1 : ∃ p ∈ coords img.width img.height,
      p.1 < img.width / 2 ∧ img.pix p.1 p.2 = ⟨255, 0, 0⟩
  · rw [if_neg (fun h => (hleft.mp h) hE1), if_pos hE1]
    by_cases hE2 : ∃ p ∈ coords img.width img.height,
        img.width / 2 < p.1 ∧ img.pix p.1 p.2 = ⟨255, 0, 0⟩
    · rw [if_neg (fun h => (hright.mp h) hE2), if_pos hE2]
    · rw [if_pos (hright.mpr hE2), if_neg hE2]
  · rw [if_pos (hleft.mpr hE1), if_neg hE1]
    by_cases hE2 : ∃ p ∈ coords img.width img.height,
        img.width / 2 < p.1 ∧ img.pix p.1 p.2 = ⟨255, 0, 0⟩
    · rw [if_neg (fun h => (hright.mp h) hE2), if_pos hE2]
    · rw [if_pos (hright.mpr hE2), if_neg hE2]

/-- C7: `locate_cases` returns, in left-then-right order, exactly the sides
holding a pure-red pixel strictly on that side of width/2 (a pixel at the
midline column counts toward neither side, no pixel counts toward both), and
an image without pure-red pixels yields the empty list. -/
theorem C7_locate_sides :
    (∀ img : Image,
      locate_cases img =
        (if ∃ p ∈ coords img.width img.height,
            p.1 < img.width / 2 ∧ img.pix p.1 p.2 = ⟨255, 0, 0⟩ then ["left"] else []) ++
        (if ∃ p ∈ coords img.width img.height,
            img.width / 2 < p.1 ∧ img.pix p.1 p.2 = ⟨255, 0, 0⟩ then ["right"] else [])) ∧
    (∀ img : Image,
      (∀ p ∈ coords img.width img.height, img.pix p.1 p.2 ≠ ⟨255, 0, 0⟩) →
      locate_cases img = []) := by
  refine ⟨locate_cases_characterization, fun img h => ?_⟩
  have h1 : ¬ ∃ p ∈ coords img.width img.height,
      p.1 < img.width / 2 ∧ img.pix p.1 p.2 = ⟨255, 0, 0⟩ := by
    rintro ⟨p, hp, _, hc⟩
    exact h p hp hc
  have h2 : ¬ ∃ p ∈ coords img.width img.height,
      img.width / 2 < p.1 ∧ img.pix p.1 p.2 = ⟨255, 0, 0⟩ := by
    rintro ⟨p, hp, _, hc⟩
    exact h p hp hc
  rw [locate_cases_characterization img, if_neg h1, if_neg h2]
  rfl

/- C2: the all-220 image marks every pixel, so the first window's average
divides by zero. -/

/-- The candidate-marked all-220 working image is uniformly pure green. -/
theorem H220_green (x y : Nat) : ((highlight_areas img220).pix x y).green = 255 := by
  show (if INTENSITY_MIN ≤ (220 + 220 + 220) / 3 ∧ (220 + 220 + 220) / 3 ≤ INTENSITY_MAX then
    (⟨0, 255, 0⟩ : Pixel)
    else ⟨(220 + 220 + 220) / 3, (220 + 220 + 220) / 3, (220 + 220 + 220) / 3⟩).green = 255
  decide

/-- The first scanned window of the marked all-220 image has no unmarked
pixel: its average computation divides by zero. -/
theorem area220_none :
    get_green_agv (get_area (highlight_areas img220) 0 0) = none := by
  have hinner : ∀ x < (get_area (highlight_areas img220) 0 0).width,
      sumTo (fun y =>
          if ((get_area (highlight_areas img220) 0 0).pix x y).green ≠ 255 then 0 else 1)
        (get_area (highlight_areas img220) 0 0).height = AREA_SIZE := by
    intro x hx
    rw [sumTo_eq_const _ 1 _ (fun y hy => ?_)]
    · show AREA_SIZE * 1 = AREA_SIZE
      omega
    · rw [if_neg (not_not_intro (show ((get_area (highlight_areas img220) 0 0).pix x y).green =
        255 from H220_green (x + 0) (y + 0)))]
  have hgh : greenHighlights (get_area (highlight_areas img220) 0 0) =
      AREA_SIZE * AREA_SIZE := by
    unfold greenHighlights
    rw [sumTo_eq_const _ AREA_SIZE _ hinner]
    rfl
  have h0 : (get_area (highlight_areas img220) 0 0).width *
      (get_area (highlight_areas img220) 0 0).height -
      greenHighlights (get_area (highlight_areas img220) 0 0) = 0 := by
    rw [hgh]
    show AREA_SIZE * AREA_SIZE - AREA_SIZE * AREA_SIZE = 0
    omega
  simp only [get_green_agv]
  rw [if_pos h0]

/-- On the all-220 image, `find_cases` aborts with the division-by-zero at its
very first window. -/
theorem find_cases_img220_none : find_cases (highlight_areas img220) = none := by
  have hoff : scanOffsets (highlight_areas img220).width (highlight_areas img220).height =
      OFF35 := by decide
  have hscan : scan_area (get_area (highlight_areas img220) 0 0) (highlight_areas img220) =
      none := by
    unfold scan_area
    rw [area220_none]
    rfl
  have hstep : find_step (highlight_areas img220, 0) ((0, 0) : Nat × Nat) = none := by
    show (scan_area (get_area (highlight_areas img220) 0 0) (highlight_areas img220)).map _ =
      none
    rw [hscan]
    rfl
  unfold find_cases
  rw [hoff, show OFF35 = ((0, 0) : Nat × Nat) :: OFF35.tail from rfl, foldlM_opt_cons, hstep]
  rfl

/-- C2 counterexample: over the 400x300 working frame the scan visits 35
offsets, never reaching x = 350 (nor (350, 200)), so the claimed 8x6 = 48 grid
is not scanned; moreover on the all-220 image `find_cases` aborts with
division by zero instead of producing any count. -/
theorem C2_cex_grid_and_crash :
    (scanOffsets 400 300).length = 35 ∧
    ((350, 0) : Nat × Nat) ∉ scanOffsets 400 300 ∧
    ((350, 200) : Nat × Nat) ∉ scanOffsets 400 300 ∧
    find_cases (highlight_areas img220) = none :=
  ⟨by decide, by decide, by decide, find_cases_img220_none⟩

/-- C2 amended: the scan offsets over 400x300 are x in {0,50,...,300} and y in
{0,50,...,200} — a 7x5 grid of 35 windows; on the all-220 working image every
pixel is candidate-marked, so the premise of a usable whole-image average is
unsatisfiable and detect fails with division by zero rather than counting. -/
theorem C2_amended_grid35_div0 :
    scanOffsets IMAGE_WIDTH IMAGE_HEIGHT = OFF35 ∧
    OFF35.length = 35 ∧
    allMarked (highlight_areas img220) ∧
    find_cases (highlight_areas img220) = none :=
  ⟨by decide, by decide, fun x _ y _ => H220_green x y, find_cases_img220_none⟩

/- Window-total bounds: a window's green total is bracketed through strips on
which the concrete images are constant. -/

theorem areaTot_ge (img : Image) (n m a b c d v : Nat)
    (hab : a ≤ b) (hb : b ≤ AREA_SIZE) (hcd : c ≤ d) (hd : d ≤ AREA_SIZE)
    (hv : ∀ x y, a ≤ x → x < b → c ≤ y → y < d → v ≤ (img.pix (x + n) (y + m)).green) :
    (b - a) * ((d - c) * v) ≤ areaTot img n m := by
  unfold areaTot
  apply sumTo_ge_strip _ a b ((d - c) * v) AREA_SIZE hab hb
  intro x hxa hxb
  apply sumTo_ge_strip _ c d v AREA_SIZE hcd hd
  intro y hyc hyd
  exact hv x y hxa hxb hyc hyd

theorem areaTot_le (img : Image) (n m V : Nat)
    (hV : ∀ x < AREA_SIZE, ∀ y < AREA_SIZE, (img.pix (x + n) (y + m)).green ≤ V) :
    areaTot img n m ≤ AREA_SIZE * (AREA_SIZE * V) := by
  unfold areaTot
  calc sumTo (fun x => sumTo (fun y => (img.pix (x + n) (y + m)).green) AREA_SIZE) AREA_SIZE
      ≤ sumTo (fun _ => AREA_SIZE * V) AREA_SIZE := by
        apply sumTo_le_sumTo
        intro x hx
        calc sumTo (fun y => (img.pix (x + n) (y + m)).green) AREA_SIZE
            ≤ sumTo (fun _ => V) AREA_SIZE :=
              sumTo_le_sumTo _ _ _ (fun y hy => hV x hx y hy)
        _ = AREA_SIZE * V := sumTo_const V AREA_SIZE
  _ = AREA_SIZE * (AREA_SIZE * V) := sumTo_const (AREA_SIZE * V) AREA_SIZE

theorem areaTot_le_strip_x (img : Image) (n m a b v V : Nat)
    (hab : a ≤ b) (hb : b ≤ AREA_SIZE)
    (hin : ∀ x y, a ≤ x → x < b → y < AREA_SIZE → (img.pix (x + n) (y + m)).green ≤ v)
    (hall : ∀ x < AREA_SIZE, ∀ y < AREA_SIZE, (img.pix (x + n) (y + m)).green ≤ V) :
    areaTot img n m ≤ (b - a) * (AREA_SIZE * v) + (AREA_SIZE - (b - a)) * (AREA_SIZE * V) := by
  unfold areaTot
  apply sumTo_le_strip _ a b (AREA_SIZE * v) (AREA_SIZE * V) AREA_SIZE hab hb
  · intro x hxa hxb
    calc sumTo (fun y => (img.pix (x + n) (y + m)).green) AREA_SIZE
        ≤ sumTo (fun _ => v) AREA_SIZE :=
          sumTo_le_sumTo _ _ _ (fun y hy => hin x y hxa hxb hy)
    _ = AREA_SIZE * v := sumTo_const v AREA_SIZE
  · intro x hx
    calc sumTo (fun y => (img.pix (x + n) (y + m)).green) AREA_SIZE
        ≤ sumTo (fun _ => V) AREA_SIZE :=
          sumTo_le_sumTo _ _ _ (fun y hy => hall x hx y hy)
    _ = AREA_SIZE * V := sumTo_const V AREA_SIZE

theorem areaTot_le_strip_y (img : Image) (n m c d v V : Nat)
    (hcd : c ≤ d) (hd : d ≤ AREA_SIZE)
    (hin : ∀ x y, x < AREA_SIZE → c ≤ y → y < d → (img.pix (x + n) (y + m)).green ≤ v)
    (hall : ∀ x < AREA_SIZE, ∀ y < AREA_SIZE, (img.pix (x + n) (y + m)).green ≤ V)
    (_hvV : v ≤ V) :
    areaTot img n m ≤ AREA_SIZE * ((d - c) * v + (AREA_SIZE - (d - c)) * V) := by
  unfold areaTot
  calc sumTo (fun x => sumTo (fun y => (img.pix (x + n) (y + m)).green) AREA_SIZE) AREA_SIZE
      ≤ sumTo (fun _ => (d - c) * v + (AREA_SIZE - (d - c)) * V) AREA_SIZE := by
        apply sumTo_le_sumTo
        intro x hx
        exact sumTo_le_strip _ c d v V AREA_SIZE hcd hd
          (fun y hyc hyd => hin x y hx hyc hyd) (fun y hy => hall x hx y hy)
  _ = AREA_SIZE * ((d - c) * v + (AREA_SIZE - (d - c)) * V) := sumTo_const _ AREA_SIZE

/-- A window whose total is high enough misses a low band. -/
theorem noMatch_of_lo (img : Image) (A : Nat) (nm : Nat × Nat) (s1 s2 lo : Nat)
    (h255 : ∀ x < AREA_SIZE, ∀ y < AREA_SIZE, (img.pix (x + nm.1) (y + nm.2)).green ≠ 255)
    (hband : select_band A = (s1, s2))
    (hlo : lo ≤ areaTot img nm.1 nm.2)
    (hmiss : s2 * 10000 + 9999 < lo) :
    noMatchStrict img A nm = true := by
  have hb := area_avg_eq img nm.1 nm.2 h255
  apply noMatchStrict_of_bounds img A nm
    (areaTot img nm.1 nm.2 / (AREA_SIZE * AREA_SIZE)) s1 s2 hb hband
  right
  rw [show AREA_SIZE * AREA_SIZE = 10000 from rfl]
  have h1 : s2 + 1 ≤ areaTot img nm.1 nm.2 / 10000 := by
    rw [Nat.le_div_iff_mul_le (by norm_num)]
    omega
  omega

/-- A window whose total is low enough misses a high band. -/
theorem noMatch_of_hi (img : Image) (A : Nat) (nm : Nat × Nat) (s1 s2 hi : Nat)
    (h255 : ∀ x < AREA_SIZE, ∀ y < AREA_SIZE, (img.pix (x + nm.1) (y + nm.2)).green ≠ 255)
    (hband : select_band A = (s1, s2))
    (hhi : areaTot img nm.1 nm.2 ≤ hi)
    (hmiss : hi < s1 * 10000) :
    noMatchStrict img A nm = true := by
  have hb := area_avg_eq img nm.1 nm.2 h255
  apply noMatchStrict_of_bounds img A nm
    (areaTot img nm.1 nm.2 / (AREA_SIZE * AREA_SIZE)) s1 s2 hb hband
  left
  rw [show AREA_SIZE * AREA_SIZE = 10000 from rfl]
  have h1 : areaTot img nm.1 nm.2 / 10000 ≤ hi / 10000 := Nat.div_le_div_right hhi
  have h2 : hi / 10000 < s1 := by
    rw [Nat.div_lt_iff_lt_mul (by norm_num)]
    omega
  omega

/-- A uniform window misses any band not containing its value. -/
theorem noMatch_of_const (img : Image) (A : Nat) (nm : Nat × Nat) (s1 s2 v : Nat)
    (hb : get_green_agv (get_area img nm.1 nm.2) = some v)
    (hband : select_band A = (s1, s2)) (h : v < s1 ∨ s2 < v) :
    noMatchStrict img A nm = true :=
  noMatchStrict_of_bounds img A nm v s1 s2 hb hband h

/-- Whole-image averages at most 80 always select the fallback band. -/
theorem select_band_of_le80 (A : Nat) (h : A ≤ 80) : select_band A = (10, 20) := by
  unfold select_band
  rw [if_neg (by omega), if_neg (by omega), if_neg (by omega)]

/-- A nonempty image whose green channel stays at or below 60 (and never 255)
has a usable whole-image average selecting the fallback band. -/
theorem image_band_fallback (img : Image)
    (hne : ∀ x < img.width, ∀ y < img.height, (img.pix x y).green ≠ 255)
    (hle : ∀ x < img.width, ∀ y < img.height, (img.pix x y).green ≤ 60)
    (hwh : img.width * img.height ≠ 0) :
    ∃ A, get_green_agv img = some A ∧ select_band A = (10, 20) := by
  refine ⟨imageTot img / (img.width * img.height), image_avg_eq img hne hwh, ?_⟩
  have htot : imageTot img ≤ img.width * (img.height * 60) := by
    unfold imageTot
    calc sumTo (fun x => sumTo (fun y => (img.pix x y).green) img.height) img.width
        ≤ sumTo (fun _ => img.height * 60) img.width := by
          apply sumTo_le_sumTo
          intro x hx
          calc sumTo (fun y => (img.pix x y).green) img.height
              ≤ sumTo (fun _ => 60) img.height :=
                sumTo_le_sumTo _ _ _ (fun y hy => hle x hx y hy)
          _ = img.height * 60 := sumTo_const 60 img.height
    _ = img.width * (img.height * 60) := sumTo_const _ img.width
  apply select_band_of_le80
  have h60 : imageTot img ≤ img.width * img.height * 60 := by
    calc imageTot img ≤ img.width * (img.height * 60) := htot
    _ = img.width * img.height * 60 := by rw [Nat.mul_assoc]
  have hdiv : imageTot img / (img.width * img.height) ≤ 60 := by
    calc imageTot img / (img.width * img.height)
        ≤ img.width * img.height * 60 / (img.width * img.height) :=
          Nat.div_le_div_right h60
    _ = 60 := Nat.mul_div_cancel_left 60 (Nat.pos_of_ne_zero hwh)
  omega

/- The uniform witness image: nothing confirms, with or without hoisting. -/

theorem U60_avg : get_green_agv U60 = some 60 :=
  image_avg_const U60 60 (by decide) (by decide) (fun x _ y _ => rfl)

theorem U60_noMatch : ∀ nm ∈ scanOffsets U60.width U60.height, noMatchAt U60 60 nm = true := by
  intro nm _
  have hb : get_green_agv (get_area U60 nm.1 nm.2) = some 60 :=
    area_avg_const U60 nm.1 nm.2 60 (by decide) (fun x _ y _ => rfl)
  simp only [noMatchAt, hb]
  decide

/-- The per-window and hoisted scans agree step by step while no window
confirms (and abort together when a window's average divides by zero). -/
theorem fold_both (img : Image) (A : Nat) (hA : get_green_agv img = some A) :
    ∀ (l : List (Nat × Nat)), (∀ nm ∈ l, noMatchAt img A nm = true) → ∀ c,
      List.foldlM find_step (img, c) l = List.foldlM (hoist_step A) (img, c) l := by
  intro l
  induction l with
  | nil => intro _ _; rfl
  | cons nm l ih =>
    intro h c
    have hnm := h nm (List.mem_cons_self nm l)
    rw [foldlM_opt_cons, foldlM_opt_cons]
    cases hb : get_green_agv (get_area img nm.1 nm.2) with
    | none =>
      have h1 : find_step (img, c) nm = none := by
        have hs : scan_area (get_area img nm.1 nm.2) img = none := by
          unfold scan_area
          rw [hb]
          rfl
        unfold find_step
        rw [hs]
        rfl
      have h2 : hoist_step A (img, c) nm = none := by
        have hs : scan_area_hoisted (get_area img nm.1 nm.2) A = none := by
          unfold scan_area_hoisted
          rw [hb]
          rfl
        unfold hoist_step
        rw [hs]
        rfl
      rw [h1, h2]
      rfl
    | some b =>
      have hout : ¬ ((select_band A).1 ≤ b ∧ b ≤ (select_band A).2) := by
        simp only [noMatchAt, hb, decide_eq_true_eq] at hnm
        exact hnm
      rw [find_step_eq_nomatch img c nm b A hb hA hout,
        hoist_step_eq_nomatch A img c nm b hb hout, optBind_some, optBind_some]
      exact ih (fun p hp => h p (List.mem_cons_of_mem nm hp)) c

/-- C1 amended: recomputing the whole-image green average once per scanned
window is equivalent to hoisting it once per call only while no window
confirms: if every scanned window of the input misses the band selected by
the initial average (or its own average fails), the image never changes
during the scan and `find_cases` equals the hoisted variant. (In general the
two differ: a confirmed window's red ring has green 0 and changes the
whole-image average for later windows.) -/
theorem C1_amended_hoist_if_no_confirm :
    ∀ (img : Image) (A : Nat), get_green_agv img = some A →
      (∀ nm ∈ scanOffsets img.width img.height, noMatchAt img A nm = true) →
      find_cases img = find_cases_hoisted img := by
  intro img A hA h
  unfold find_cases find_cases_hoisted
  rw [hA, optBind_some]
  exact fold_both img A hA _ h 0

/-- C1 amended witness: on the uniform 400x300 image of value 60 no window
confirms and both scans agree. -/
theorem C1_amended_hoist_if_no_confirm_witness :
    find_cases U60 = find_cases_hoisted U60 :=
  C1_amended_hoist_if_no_confirm U60 60 U60_avg U60_noMatch

/- Pointwise facts about the C10 images. -/

theorem C0_ne255 (x y : Nat) : (C0img.pix x y).green ≠ 255 := by
  rw [C0img_green]
  split_ifs <;> omega

theorem C0_le60 (x y : Nat) : (C0img.pix x y).green ≤ 60 := by
  rw [C0img_green]
  split_ifs <;> omega

theorem C10out_ne255 (x y : Nat) : (C10out.pix x y).green ≠ 255 := by
  rw [C10out_green]
  split_ifs <;> omega

theorem C10out_le60 (x y : Nat) : (C10out.pix x y).green ≤ 60 := by
  rw [C10out_green]
  split_ifs <;> omega

theorem C0_fallback : ∃ A, get_green_agv C0img = some A ∧ select_band A = (10, 20) :=
  image_band_fallback C0img (fun x _ y _ => C0_ne255 x y) (fun x _ y _ => C0_le60 x y)
    (by decide)

theorem C10out_fallback : ∃ A, get_green_agv C10out = some A ∧ select_band A = (10, 20) :=
  image_band_fallback C10out (fun x _ y _ => C10out_ne255 x y)
    (fun x _ y _ => C10out_le60 x y) (by decide)

/-- The scan of `C0img` confirms exactly the window at (50,0) and merges its
clipped red ring, producing `C10out` with case count 1. -/
theorem trace_C0 : find_cases C0img = some (C10out, 1) := by
  obtain ⟨A0, hA0, hband0⟩ := C0_fallback
  obtain ⟨A1, hA1, hband1⟩ := C10out_fallback
  have c60C0 : ∀ n m : Nat, (150 ≤ n ∨ 100 ≤ m) → noMatchStrict C0img A0 (n, m) = true := by
    intro n m hnm
    refine noMatch_of_const C0img A0 (n, m) 10 20 60
      (area_avg_const C0img n m 60 (by decide) ?_) hband0 (Or.inr (by norm_num))
    intro x hx y hy
    have hx' : x < 100 := hx
    have hy' : y < 100 := hy
    rw [C0img_green, if_neg (by omega)]
  have c00 : noMatchStrict C0img A0 (0, 0) = true := by
    refine noMatch_of_lo C0img A0 (0, 0) 10 20 ((50 - 0) * ((100 - 0) * 60))
      (fun x _ y _ => C0_ne255 _ _) hband0 ?_ (by norm_num)
    refine areaTot_ge C0img 0 0 0 50 0 100 60 (by omega) (by decide) (by omega) (by decide) ?_
    intro x y hxa hxb hyc hyd
    rw [C0img_green, if_neg (by omega)]
  have c05 : noMatchStrict C0img A0 (0, 50) = true := by
    refine noMatch_of_lo C0img A0 (0, 50) 10 20 ((50 - 0) * ((100 - 0) * 60))
      (fun x _ y _ => C0_ne255 _ _) hband0 ?_ (by norm_num)
    refine areaTot_ge C0img 0 50 0 50 0 100 60 (by omega) (by decide) (by omega) (by decide) ?_
    intro x y hxa hxb hyc hyd
    rw [C0img_green, if_neg (by omega)]
  have c60out : ∀ n m : Nat, (150 ≤ n ∨ 100 ≤ m) →
      noMatchStrict C10out A1 (n, m) = true := by
    intro n m hnm
    refine noMatch_of_const C10out A1 (n, m) 10 20 60
      (area_avg_const C10out n m 60 (by decide) ?_) hband1 (Or.inr (by norm_num))
    intro x hx y hy
    have hx' : x < 100 := hx
    have hy' : y < 100 := hy
    rw [C10out_green, if_neg (by omega), if_neg (by omega)]
  have cm1 : noMatchStrict C10out A1 (50, 50) = true := by
    refine noMatch_of_lo C10out A1 (50, 50) 10 20 ((100 - 0) * ((100 - 50) * 60))
      (fun x _ y _ => C10out_ne255 _ _) hband1 ?_ (by norm_num)
    refine areaTot_ge C10out 50 50 0 100 50 100 60 (by omega) (by decide) (by omega)
      (by decide) ?_
    intro x y hxa hxb hyc hyd
    rw [C10out_green, if_neg (by omega), if_neg (by omega)]
  have cm2 : noMatchStrict C10out A1 (100, 0) = true := by
    refine noMatch_of_lo C10out A1 (100, 0) 10 20 ((100 - 50) * ((100 - 0) * 60))
      (fun x _ y _ => C10out_ne255 _ _) hband1 ?_ (by norm_num)
    refine areaTot_ge C10out 100 0 50 100 0 100 60 (by omega) (by decide) (by omega)
      (by decide) ?_
    intro x y hxa hxb hyc hyd
    rw [C10out_green, if_neg (by omega), if_neg (by omega)]
  have cm3 : noMatchStrict C10out A1 (100, 50) = true := by
    refine noMatch_of_lo C10out A1 (100, 50) 10 20 ((100 - 50) * ((100 - 0) * 60))
      (fun x _ y _ => C10out_ne255 _ _) hband1 ?_ (by norm_num)
    refine areaTot_ge C10out 100 50 50 100 0 100 60 (by omega) (by decide) (by omega)
      (by decide) ?_
    intro x y hxa hxb hyc hyd
    rw [C10out_green, if_neg (by omega), if_neg (by omega)]
  have hPRE : ∀ nm ∈ ([(0, 0), (0, 50), (0, 100), (0, 150), (0, 200)] : List (Nat × Nat)),
      noMatchStrict C0img A0 nm = true := by
    intro nm h
    fin_cases h
    · exact c00
    · exact c05
    · exact c60C0 0 100 (Or.inr (by omega))
    · exact c60C0 0 150 (Or.inr (by omega))
    · exact c60C0 0 200 (Or.inr (by omega))
  have hPOST : ∀ nm ∈ ([(50, 50), (50, 100), (50, 150), (50, 200),
      (100, 0), (100, 50), (100, 100), (100, 150), (100, 200),
      (150, 0), (150, 50), (150, 100), (150, 150), (150, 200),
      (200, 0), (200, 50), (200, 100), (200, 150), (200, 200),
      (250, 0), (250, 50), (250, 100), (250, 150), (250, 200),
      (300, 0), (300, 50), (300, 100), (300, 150), (300, 200)] : List (Nat × Nat)),
      noMatchStrict C10out A1 nm = true := by
    intro nm h
    fin_cases h
    · exact cm1
    · exact c60out 50 100 (Or.inr (by omega))
    · exact c60out 50 150 (Or.inr (by omega))
    · exact c60out 50 200 (Or.inr (by omega))
    · exact cm2
    · exact cm3
    · exact c60out 100 100 (Or.inr (by omega))
    · exact c60out 100 150 (Or.inr (by omega))
    · exact c60out 100 200 (Or.inr (by omega))
    · exact c60out 150 0 (Or.inl (by omega))
    · exact c60out 150 50 (Or.inl (by omega))
    · exact c60out 150 100 (Or.inl (by omega))
    · exact c60out 150 150 (Or.inl (by omega))
    · exact c60out 150 200 (Or.inl (by omega))
    · exact c60out 200 0 (Or.inl (by omega))
    · exact c60out 200 50 (Or.inl (by omega))
    · exact c60out 200 100 (Or.inl (by omega))
    · exact c60out 200 150 (Or.inl (by omega))
    · exact c60out 200 200 (Or.inl (by omega))
    · exact c60out 250 0 (Or.inl (by omega))
    · exact c60out 250 50 (Or.inl (by omega))
    · exact c60out 250 100 (Or.inl (by omega))
    · exact c60out 250 150 (Or.inl (by omega))
    · exact c60out 250 200 (Or.inl (by omega))
    · exact c60out 300 0 (Or.inl (by omega))
    · exact c60out 300 50 (Or.inl (by omega))
    · exact c60out 300 100 (Or.inl (by omega))
    · exact c60out 300 150 (Or.inl (by omega))
    · exact c60out 300 200 (Or.inl (by omega))
  have hb15 : get_green_agv (get_area C0img 50 0) = some 15 := by
    refine area_avg_const C0img 50 0 15 (by decide) ?_
    intro x hx y hy
    have hx' : x < 100 := hx
    have hy' : y < 100 := hy
    rw [C0img_green, if_pos (by omega)]
  have hin15 : (select_band A0).1 ≤ 15 ∧ 15 ≤ (select_band A0).2 := by
    rw [hband0]
    constructor <;> norm_num
  have hsplit : scanOffsets C0img.width C0img.height =
      ([(0, 0), (0, 50), (0, 100), (0, 150), (0, 200)] : List (Nat × Nat)) ++
      ((50, 0) :: ([(50, 50), (50, 100), (50, 150), (50, 200),
        (100, 0), (100, 50), (100, 100), (100, 150), (100, 200),
        (150, 0), (150, 50), (150, 100), (150, 150), (150, 200),
        (200, 0), (200, 50), (200, 100), (200, 150), (200, 200),
        (250, 0), (250, 50), (250, 100), (250, 150), (250, 200),
        (300, 0), (300, 50), (300, 100), (300, 150), (300, 200)] : List (Nat × Nat))) := by
    decide
  have hstep := find_step_eq_match C0img 0 ((50, 0) : Nat × Nat) 15 A0 hb15 hA0 hin15
  unfold find_cases
  rw [hsplit, foldlM_opt_append, fold_nomatch C0img A0 hA0 _ hPRE 0, optBind_some,
    foldlM_opt_cons, hstep, optBind_some]
  exact fold_nomatch C10out A1 hA1 _ hPOST 1

/- Frame analysis of the scan: every write is either the sampled pixel itself
or pure red on a window ring. -/

theorem scan_area_shape (area image : Image) (r : Image × Nat)
    (h : scan_area area image = some r) : r.1 = area ∨ r.1 = mark_border area := by
  unfold scan_area at h
  cases hb : get_green_agv area with
  | none =>
    rw [hb] at h
    exact Option.noConfusion h
  | some b =>
    rw [hb, optBind_some] at h
    cases ha : get_green_agv image with
    | none =>
      rw [ha] at h
      exact Option.noConfusion h
    | some a =>
      rw [ha, optMap_some] at h
      injection h with h2
      by_cases hc : (select_band a).1 ≤ b ∧ b ≤ (select_band a).2
      · rw [if_pos hc] at h2
        right
        rw [← h2]
      · rw [if_neg hc] at h2
        left
        rw [← h2]

theorem add_area_frame (img ra : Image) (n m : Nat)
    (hra : ra = get_area img n m ∨ ra = mark_border (get_area img n m)) (x y : Nat) :
    (add_area img ra n m).pix x y = img.pix x y ∨
      (ringAt (n, m) x y ∧ (add_area img ra n m).pix x y = ⟨255, 0, 0⟩) := by
  have hpix : (add_area img ra n m).pix x y =
      if n ≤ x ∧ x < n + AREA_SIZE ∧ m ≤ y ∧ y < m + AREA_SIZE ∧
          ((n = 0 ∧ m = 0) ∨ ¬(x < AREA_SIZE ∧ y < AREA_SIZE)) then
        ra.pix (x - n) (y - m)
      else img.pix x y := rfl
  rw [hpix]
  by_cases hc : n ≤ x ∧ x < n + AREA_SIZE ∧ m ≤ y ∧ y < m + AREA_SIZE ∧
      ((n = 0 ∧ m = 0) ∨ ¬(x < AREA_SIZE ∧ y < AREA_SIZE))
  · rw [if_pos hc]
    rcases hra with h | h
    · left
      rw [h]
      show img.pix (x - n + n) (y - m + m) = img.pix x y
      rw [Nat.sub_add_cancel hc.1, Nat.sub_add_cancel hc.2.2.1]
    · rw [h]
      have hmb : (mark_border (get_area img n m)).pix (x - n) (y - m) =
          if y - m = 0 ∨ y - m = AREA_SIZE - 1 ∨ x - n = 0 ∨ x - n = AREA_SIZE - 1 then
            (⟨255, 0, 0⟩ : Pixel)
          else img.pix (x - n + n) (y - m + m) := rfl
      rw [hmb]
      by_cases hr : y - m = 0 ∨ y - m = AREA_SIZE - 1 ∨ x - n = 0 ∨ x - n = AREA_SIZE - 1
      · right
        rw [if_pos hr]
        refine ⟨⟨hc.1, hc.2.1, hc.2.2.1, hc.2.2.2.1, ?_⟩, rfl⟩
        have h1 := hc.1
        have h2 := hc.2.2.1
        show x = n ∨ x = n + (AREA_SIZE - 1) ∨ y = m ∨ y = m + (AREA_SIZE - 1)
        omega
      · left
        rw [if_neg hr]
        show img.pix (x - n + n) (y - m + m) = img.pix x y
        rw [Nat.sub_add_cancel hc.1, Nat.sub_add_cancel hc.2.2.1]
  · left
    rw [if_neg hc]

theorem find_step_frame (st : Image × Nat) (nm : Nat × Nat) (st1 : Image × Nat)
    (h : find_step st nm = some st1) :
    st1.1.width = st.1.width ∧ st1.1.height = st.1.height ∧
    ∀ x y, st1.1.pix x y = st.1.pix x y ∨
      (ringAt nm x y ∧ st1.1.pix x y = ⟨255, 0, 0⟩) := by
  unfold find_step at h
  cases hs : scan_area (get_area st.1 nm.1 nm.2) st.1 with
  | none =>
    rw [hs] at h
    exact Option.noConfusion h
  | some r =>
    rw [hs, optMap_some] at h
    injection h with h1
    have hshape := scan_area_shape _ _ r hs
    subst h1
    refine ⟨rfl, rfl, fun x y => ?_⟩
    exact add_area_frame st.1 r.1 nm.1 nm.2 hshape x y

theorem fold_frame : ∀ (l : List (Nat × Nat)) (st res : Image × Nat),
    List.foldlM find_step st l = some res →
    res.1.width = st.1.width ∧ res.1.height = st.1.height ∧
    ∀ x y, res.1.pix x y = st.1.pix x y ∨
      ((∃ nm ∈ l, ringAt nm x y) ∧ res.1.pix x y = ⟨255, 0, 0⟩) := by
  intro l
  induction l with
  | nil =>
    intro st res h
    rw [foldlM_opt_nil] at h
    injection h with h1
    subst h1
    exact ⟨rfl, rfl, fun x y => Or.inl rfl⟩
  | cons nm l ih =>
    intro st res h
    rw [foldlM_opt_cons] at h
    cases hs : find_step st nm with
    | none =>
      rw [hs] at h
      exact Option.noConfusion h
    | some st1 =>
      rw [hs, optBind_some] at h
      have h1 := find_step_frame st nm st1 hs
      have h2 := ih st1 res h
      refine ⟨h2.1.trans h1.1, h2.2.1.trans h1.2.1, fun x y => ?_⟩
      rcases h2.2.2 x y with heq | ⟨⟨p, hp, hring⟩, hred⟩
      · rcases h1.2.2 x y with heq1 | ⟨hring1, hred1⟩
        · exact Or.inl (heq.trans heq1)
        · exact Or.inr ⟨⟨nm, List.mem_cons_self nm l, hring1⟩, heq.trans hred1⟩
      · exact Or.inr ⟨⟨p, List.mem_cons_of_mem nm hp, hring⟩, hred⟩

/-- C10 amended: whenever `find_cases` returns, the output image has the input
image's dimensions and agrees with the input at every pixel that is not on
the outermost ring of some scanned window; every changed pixel lies on such a
ring and holds pure red (255,0,0). (The original claim's stronger promise —
that a confirmed region's whole ring IS painted red — fails: `add_area`'s
interleaved copy/paste reverts the ring inside the top-left AREA_SIZE square
for confirmed windows at offsets other than (0,0).) -/
theorem C10_amended_frame :
    ∀ (img out : Image) (c : Nat), find_cases img = some (out, c) →
      out.width = img.width ∧ out.height = img.height ∧
      ∀ x y, out.pix x y = img.pix x y ∨
        (onRing img.width img.height x y ∧ out.pix x y = ⟨255, 0, 0⟩) := by
  intro img out c h
  unfold find_cases at h
  have hf := fold_frame _ (img, 0) (out, c) h
  refine ⟨hf.1, hf.2.1, fun x y => ?_⟩
  rcases hf.2.2 x y with heq | ⟨⟨p, hp, hring⟩, hred⟩
  · exact Or.inl heq
  · exact Or.inr ⟨⟨p, hp, hring⟩, hred⟩

/-- C10 amended witness: the scan of `C0img` changes pixels only on window
rings and only to pure red. -/
theorem C10_amended_frame_witness :
    C10out.width = C0img.width ∧ C10out.height = C0img.height ∧
    ∀ x y, C10out.pix x y = C0img.pix x y ∨
      (onRing C0img.width C0img.height x y ∧ C10out.pix x y = ⟨255, 0, 0⟩) :=
  C10_amended_frame C0img C10out 1 trace_C0

/-- C10 counterexample: scanning `C0img` confirms exactly one region, the
window at offset (50,0) (its case count is 1 and ring pixels such as (149,5)
and (100,0) are painted pure red), yet the ring pixel (50,5) of that confirmed
region keeps its original value (15,15,15) instead of being set to red: the
merge loop order reverts ring pixels inside the top-left AREA_SIZE square. -/
theorem C10_cex_clipped_ring :
    find_cases C0img = some (C10out, 1) ∧
    C0img.pix 50 5 = ⟨15, 15, 15⟩ ∧
    C10out.pix 50 5 = ⟨15, 15, 15⟩ ∧
    C10out.pix 149 5 = ⟨255, 0, 0⟩ ∧
    C10out.pix 100 0 = ⟨255, 0, 0⟩ :=
  ⟨trace_C0, rfl, rfl, rfl, rfl⟩

/- Exact whole-image averages of the C1 images, by row decomposition. -/

theorem Eimg_ne255 (x y : Nat) : (Eimg.pix x y).green ≠ 255 := by
  rw [Eimg_green]
  split_ifs <;> omega

theorem I1_ne255 (x y : Nat) : (I1img.pix x y).green ≠ 255 := by
  rw [I1img_green]
  split_ifs <;> omega

theorem I1_le109 (x y : Nat) : (I1img.pix x y).green ≤ 109 := by
  rw [I1img_green]
  split_ifs <;> omega

theorem Eimg_row (x : Nat) (hx : x < 400) :
    sumTo (fun y => (Eimg.pix x y).green) 300 =
      if x < 100 then 26000 else if 300 ≤ x then 26000 else 22600 := by
  have hd : sumTo (fun y => (Eimg.pix x y).green) 300 =
      sumTo (fun y => (Eimg.pix x y).green) 100 +
      (sumTo (fun i => (Eimg.pix x (100 + i)).green) 100 +
       sumTo (fun i => (Eimg.pix x (100 + (100 + i))).green) 100) := by
    conv_lhs => rw [show (300 : Nat) = 100 + (100 + 100) from rfl]
    rw [sumTo_split, sumTo_split]
  rw [hd]
  by_cases h1 : x < 100
  · rw [if_pos h1,
      sumTo_eq_const _ 109 _ (fun i hi => by rw [Eimg_green, if_pos ⟨h1, hi⟩]),
      sumTo_eq_const _ 76 _ (fun i hi => by
        rw [Eimg_green, if_neg (by omega), if_neg (by omega), if_pos (by omega)]),
      sumTo_eq_const _ 75 _ (fun i hi => by
        rw [Eimg_green, if_neg (by omega), if_neg (by omega), if_neg (by omega)])]
  · rw [if_neg h1]
    by_cases h2 : 300 ≤ x
    · rw [if_pos h2,
        sumTo_eq_const _ 75 _ (fun i hi => by
          rw [Eimg_green, if_neg (by omega), if_neg (by omega), if_neg (by omega)]),
        sumTo_eq_const _ 76 _ (fun i hi => by
          rw [Eimg_green, if_neg (by omega), if_neg (by omega), if_pos (by omega)]),
        sumTo_eq_const _ 109 _ (fun i hi => by
          rw [Eimg_green, if_neg (by omega), if_pos (by omega)])]
    · rw [if_neg h2,
        sumTo_eq_const _ 75 _ (fun i hi => by
          rw [Eimg_green, if_neg (by omega), if_neg (by omega), if_neg (by omega)]),
        sumTo_eq_const _ 76 _ (fun i hi => by
          rw [Eimg_green, if_neg (by omega), if_neg (by omega), if_pos (by omega)]),
        sumTo_eq_const _ 75 _ (fun i hi => by
          rw [Eimg_green, if_neg (by omega), if_neg (by omega), if_neg (by omega)])]

theorem imageTot_Eimg : imageTot Eimg = 9720000 := by
  unfold imageTot
  have hcongr := sumTo_congr
    (fun x => sumTo (fun y => (Eimg.pix x y).green) Eimg.height)
    (fun x => if x < 100 then 26000 else if 300 ≤ x then 26000 else 22600)
    Eimg.width (fun x hx => Eimg_row x hx)
  rw [hcongr, show Eimg.width = 100 + (200 + 100) from rfl, sumTo_split, sumTo_split,
    sumTo_eq_const _ 26000 100 (fun i hi => by rw [if_pos hi]),
    sumTo_eq_const _ 22600 200 (fun i hi => by rw [if_neg (by omega), if_neg (by omega)]),
    sumTo_eq_const _ 26000 100 (fun i hi => by rw [if_neg (by omega), if_pos (by omega)])]

theorem Eimg_avg : get_green_agv Eimg = some 81 := by
  rw [image_avg_eq Eimg (fun x _ y _ => Eimg_ne255 x y) (by decide), imageTot_Eimg]
  decide

theorem I1img_row (x : Nat) (hx : x < 400) :
    sumTo (fun y => (I1img.pix x y).green) 300 =
      if x = 0 ∨ x = 99 then 15100
      else if x < 100 then 25782
      else if 300 ≤ x then 26000 else 22600 := by
  have hd : sumTo (fun y => (I1img.pix x y).green) 300 =
      sumTo (fun y => (I1img.pix x y).green) 100 +
      (sumTo (fun i => (I1img.pix x (100 + i)).green) 100 +
       sumTo (fun i => (I1img.pix x (100 + (100 + i))).green) 100) := by
    conv_lhs => rw [show (300 : Nat) = 100 + (100 + 100) from rfl]
    rw [sumTo_split, sumTo_split]
  rw [hd]
  by_cases h0 : x = 0 ∨ x = 99
  · rw [if_pos h0,
      sumTo_eq_const _ 0 100 (fun i hi => by
        rw [I1img_green, if_pos (by omega), if_pos (by omega)]),
      sumTo_eq_const _ 76 _ (fun i hi => by
        rw [I1img_green, if_neg (by omega), if_neg (by omega), if_pos (by omega)]),
      sumTo_eq_const _ 75 _ (fun i hi => by
        rw [I1img_green, if_neg (by omega), if_neg (by omega), if_neg (by omega)])]
  · rw [if_neg h0]
    by_cases h1 : x < 100
    · rw [if_pos h1]
      have hseg : sumTo (fun y => (I1img.pix x y).green) 100 = 10682 := by
        conv_lhs => rw [show (100 : Nat) = 1 + (98 + 1) from rfl]
        rw [sumTo_split, sumTo_split,
          sumTo_eq_const _ 0 1 (fun i hi => by
            rw [I1img_green, if_pos (by omega), if_pos (by omega)]),
          sumTo_eq_const _ 109 98 (fun i hi => by
            rw [I1img_green, if_pos (by omega), if_neg (by omega)]),
          sumTo_eq_const _ 0 1 (fun i hi => by
            rw [I1img_green, if_pos (by omega), if_pos (by omega)])]
      rw [hseg,
        sumTo_eq_const _ 76 _ (fun i hi => by
          rw [I1img_green, if_neg (by omega), if_neg (by omega), if_pos (by omega)]),
        sumTo_eq_const _ 75 _ (fun i hi => by
          rw [I1img_green, if_neg (by omega), if_neg (by omega), if_neg (by omega)])]
    · by_cases h2 : 300 ≤ x
      · rw [if_neg h1, if_pos h2,
          sumTo_eq_const _ 75 _ (fun i hi => by
            rw [I1img_green, if_neg (by omega), if_neg (by omega), if_neg (by omega)]),
          sumTo_eq_const _ 76 _ (fun i hi => by
            rw [I1img_green, if_neg (by omega), if_neg (by omega), if_pos (by omega)]),
          sumTo_eq_const _ 109 _ (fun i hi => by
            rw [I1img_green, if_neg (by omega), if_pos (by omega)])]
      · rw [if_neg h1, if_neg h2,
          sumTo_eq_const _ 75 _ (fun i hi => by
            rw [I1img_green, if_neg (by omega), if_neg (by omega), if_neg (by omega)]),
          sumTo_eq_const _ 76 _ (fun i hi => by
            rw [I1img_green, if_neg (by omega), if_neg (by omega), if_pos (by omega)]),
          sumTo_eq_const _ 75 _ (fun i hi => by
            rw [I1img_green, if_neg (by omega), if_neg (by omega), if_neg (by omega)])]

theorem imageTot_I1img : imageTot I1img = 9676836 := by
  unfold imageTot
  have hcongr := sumTo_congr
    (fun x => sumTo (fun y => (I1img.pix x y).green) I1img.height)
    (fun x => if x = 0 ∨ x = 99 then 15100
      else if x < 100 then 25782
      else if 300 ≤ x then 26000 else 22600)
    I1img.width (fun x hx => I1img_row x hx)
  rw [hcongr, show I1img.width = 100 + (200 + 100) from rfl, sumTo_split, sumTo_split]
  have hseg : sumTo (fun x => if x = 0 ∨ x = 99 then 15100
      else if x < 100 then 25782
      else if 300 ≤ x then 26000 else 22600) 100 = 2556836 := by
    conv_lhs => rw [show (100 : Nat) = 1 + (98 + 1) from rfl]
    rw [sumTo_split, sumTo_split,
      sumTo_eq_const _ 15100 1 (fun i hi => by rw [if_pos (by omega)]),
      sumTo_eq_const _ 25782 98 (fun i hi => by rw [if_neg (by omega), if_pos (by omega)]),
      sumTo_eq_const _ 15100 1 (fun i hi => by rw [if_pos (by omega)])]
  rw [hseg,
    sumTo_eq_const _ 22600 200 (fun i hi => by
      rw [if_neg (by omega), if_neg (by omega), if_neg (by omega)]),
    sumTo_eq_const _ 26000 100 (fun i hi => by
      rw [if_neg (by omega), if_neg (by omega), if_pos (by omega)])]

theorem I1img_avg : get_green_agv I1img = some 80 := by
  rw [image_avg_eq I1img (fun x _ y _ => I1_ne255 x y) (by decide), imageTot_I1img]
  decide

/- Per-window certificates over I1img, for the fallback band (image average
80, per-window recomputation) and the (108,110) band (hoisted average 81). -/

theorem band80 : select_band 80 = (10, 20) := by decide

theorem band81 : select_band 81 = (108, 110) := by decide

theorem area_E_0_0 : get_green_agv (get_area Eimg 0 0) = some 109 :=
  area_avg_const Eimg 0 0 109 (by decide)
    (fun x hx y hy => by rw [Eimg_green, if_pos ⟨hx, hy⟩])

theorem area_I1_300_200 : get_green_agv (get_area I1img 300 200) = some 109 :=
  area_avg_const I1img 300 200 109 (by decide)
    (fun x hx y hy => by
      rw [I1img_green, if_neg (by omega), if_pos (by omega)])

theorem cmid_I1 (n m : Nat)
    (hreg : ∀ x < 100, ∀ y < 100,
      ¬(x + n < 100 ∧ y + m < 100) ∧ ¬(300 ≤ x + n ∧ 200 ≤ y + m)) :
    noMatchStrict I1img 80 (n, m) = true ∧ noMatchStrict I1img 81 (n, m) = true := by
  have hge : (100 - 0) * ((100 - 0) * 75) ≤ areaTot I1img n m := by
    refine areaTot_ge I1img n m 0 100 0 100 75 (by omega) (by decide) (by omega) (by decide) ?_
    intro x y hxa hxb hyc hyd
    have hr := hreg x hxb y hyd
    rw [I1img_green, if_neg hr.1, if_neg hr.2]
    split_ifs <;> omega
  have hle : areaTot I1img n m ≤ AREA_SIZE * (AREA_SIZE * 76) := by
    refine areaTot_le I1img n m 76 ?_
    intro x hx y hy
    have hr := hreg x hx y hy
    rw [I1img_green, if_neg hr.1, if_neg hr.2]
    split_ifs <;> omega
  constructor
  · exact noMatch_of_lo I1img 80 (n, m) 10 20 _
      (fun x _ y _ => I1_ne255 _ _) band80 hge (by decide)
  · exact noMatch_of_hi I1img 81 (n, m) 108 110 _
      (fun x _ y _ => I1_ne255 _ _) band81 hle (by decide)

theorem w_0_50 :
    noMatchStrict I1img 80 (0, 50) = true ∧ noMatchStrict I1img 81 (0, 50) = true := by
  have hge : (100 - 0) * ((100 - 50) * 76) ≤ areaTot I1img 0 50 := by
    refine areaTot_ge I1img 0 50 0 100 50 100 76 (by omega) (by decide) (by omega) (by decide) ?_
    intro x y hxa hxb hyc hyd
    rw [I1img_green, if_neg (by omega), if_neg (by omega), if_pos (by omega)]
  have hle : areaTot I1img 0 50 ≤
      AREA_SIZE * ((100 - 50) * 76 + (AREA_SIZE - (100 - 50)) * 109) := by
    refine areaTot_le_strip_y I1img 0 50 50 100 76 109 (by omega) (by decide) ?_
      (fun x _ y _ => I1_le109 _ _) (by omega)
    intro x y hx hyc hyd
    rw [I1img_green, if_neg (by omega), if_neg (by omega), if_pos (by omega)]
  exact ⟨noMatch_of_lo I1img 80 (0, 50) 10 20 _
      (fun x _ y _ => I1_ne255 _ _) band80 hge (by decide),
    noMatch_of_hi I1img 81 (0, 50) 108 110 _
      (fun x _ y _ => I1_ne255 _ _) band81 hle (by decide)⟩

theorem w_50_0 :
    noMatchStrict I1img 80 (50, 0) = true ∧ noMatchStrict I1img 81 (50, 0) = true := by
  have hge : (100 - 50) * ((100 - 0) * 75) ≤ areaTot I1img 50 0 := by
    refine areaTot_ge I1img 50 0 50 100 0 100 75 (by omega) (by decide) (by omega) (by decide) ?_
    intro x y hxa hxb hyc hyd
    rw [I1img_green, if_neg (by omega), if_neg (by omega)]
    split_ifs <;> omega
  have hle : areaTot I1img 50 0 ≤
      (100 - 50) * (AREA_SIZE * 75) + (AREA_SIZE - (100 - 50)) * (AREA_SIZE * 109) := by
    refine areaTot_le_strip_x I1img 50 0 50 100 75 109 (by omega) (by decide) ?_
      (fun x _ y _ => I1_le109 _ _)
    intro x y hxa hxb hy
    have hy' : y < 100 := hy
    rw [I1img_green, if_neg (by omega), if_neg (by omega), if_neg (by omega)]
  exact ⟨noMatch_of_lo I1img 80 (50, 0) 10 20 _
      (fun x _ y _ => I1_ne255 _ _) band80 hge (by decide),
    noMatch_of_hi I1img 81 (50, 0) 108 110 _
      (fun x _ y _ => I1_ne255 _ _) band81 hle (by decide)⟩

theorem w_50_50 :
    noMatchStrict I1img 80 (50, 50) = true ∧ noMatchStrict I1img 81 (50, 50) = true := by
  have hge : (100 - 0) * ((100 - 50) * 76) ≤ areaTot I1img 50 50 := by
    refine areaTot_ge I1img 50 50 0 100 50 100 76 (by omega) (by decide) (by omega) (by decide) ?_
    intro x y hxa hxb hyc hyd
    rw [I1img_green, if_neg (by omega), if_neg (by omega), if_pos (by omega)]
  have hle : areaTot I1img 50 50 ≤
      AREA_SIZE * ((100 - 50) * 76 + (AREA_SIZE - (100 - 50)) * 109) := by
    refine areaTot_le_strip_y I1img 50 50 50 100 76 109 (by omega) (by decide) ?_
      (fun x _ y _ => I1_le109 _ _) (by omega)
    intro x y hx hyc hyd
    rw [I1img_green, if_neg (by omega), if_neg (by omega), if_pos (by omega)]
  exact ⟨noMatch_of_lo I1img 80 (50, 50) 10 20 _
      (fun x _ y _ => I1_ne255 _ _) band80 hge (by decide),
    noMatch_of_hi I1img 81 (50, 50) 108 110 _
      (fun x _ y _ => I1_ne255 _ _) band81 hle (by decide)⟩

theorem w_250_150 :
    noMatchStrict I1img 80 (250, 150) = true ∧ noMatchStrict I1img 81 (250, 150) = true := by
  have hge : (100 - 0) * ((100 - 0) * 75) ≤ areaTot I1img 250 150 := by
    refine areaTot_ge I1img 250 150 0 100 0 100 75 (by omega) (by decide) (by omega) (by decide) ?_
    intro x y hxa hxb hyc hyd
    rw [I1img_green, if_neg (by omega)]
    split_ifs <;> omega
  have hle : areaTot I1img 250 150 ≤
      (50 - 0) * (AREA_SIZE * 76) + (AREA_SIZE - (50 - 0)) * (AREA_SIZE * 109) := by
    refine areaTot_le_strip_x I1img 250 150 0 50 76 109 (by omega) (by decide) ?_
      (fun x _ y _ => I1_le109 _ _)
    intro x y hxa hxb hy
    rw [I1img_green, if_neg (by omega), if_neg (by omega)]
    split_ifs <;> omega
  exact ⟨noMatch_of_lo I1img 80 (250, 150) 10 20 _
      (fun x _ y _ => I1_ne255 _ _) band80 hge (by decide),
    noMatch_of_hi I1img 81 (250, 150) 108 110 _
      (fun x _ y _ => I1_ne255 _ _) band81 hle (by decide)⟩

theorem w_250_200 :
    noMatchStrict I1img 80 (250, 200) = true ∧ noMatchStrict I1img 81 (250, 200) = true := by
  have hge : (100 - 0) * ((100 - 0) * 75) ≤ areaTot I1img 250 200 := by
    refine areaTot_ge I1img 250 200 0 100 0 100 75 (by omega) (by decide) (by omega) (by decide) ?_
    intro x y hxa hxb hyc hyd
    rw [I1img_green, if_neg (by omega)]
    split_ifs <;> omega
  have hle : areaTot I1img 250 200 ≤
      (50 - 0) * (AREA_SIZE * 75) + (AREA_SIZE - (50 - 0)) * (AREA_SIZE * 109) := by
    refine areaTot_le_strip_x I1img 250 200 0 50 75 109 (by omega) (by decide) ?_
      (fun x _ y _ => I1_le109 _ _)
    intro x y hxa hxb hy
    rw [I1img_green, if_neg (by omega), if_neg (by omega), if_neg (by omega)]
  exact ⟨noMatch_of_lo I1img 80 (250, 200) 10 20 _
      (fun x _ y _ => I1_ne255 _ _) band80 hge (by decide),
    noMatch_of_hi I1img 81 (250, 200) 108 110 _
      (fun x _ y _ => I1_ne255 _ _) band81 hle (by decide)⟩

theorem w_300_150 :
    noMatchStrict I1img 80 (300, 150) = true ∧ noMatchStrict I1img 81 (300, 150) = true := by
  have hge : (100 - 0) * ((100 - 0) * 75) ≤ areaTot I1img 300 150 := by
    refine areaTot_ge I1img 300 150 0 100 0 100 75 (by omega) (by decide) (by omega) (by decide) ?_
    intro x y hxa hxb hyc hyd
    rw [I1img_green, if_neg (by omega)]
    split_ifs <;> omega
  have hle : areaTot I1img 300 150 ≤
      AREA_SIZE * ((50 - 0) * 76 + (AREA_SIZE - (50 - 0)) * 109) := by
    refine areaTot_le_strip_y I1img 300 150 0 50 76 109 (by omega) (by decide) ?_
      (fun x _ y _ => I1_le109 _ _) (by omega)
    intro x y hx hyc hyd
    rw [I1img_green, if_neg (by omega), if_neg (by omega), if_pos (by omega)]
  exact ⟨noMatch_of_lo I1img 80 (300, 150) 10 20 _
      (fun x _ y _ => I1_ne255 _ _) band80 hge (by decide),
    noMatch_of_hi I1img 81 (300, 150) 108 110 _
      (fun x _ y _ => I1_ne255 _ _) band81 hle (by decide)⟩

theorem w_300_200 : noMatchStrict I1img 80 (300, 200) = true :=
  noMatch_of_const I1img 80 (300, 200) 10 20 109 area_I1_300_200 band80 (Or.inr (by decide))

/-- The per-window scan of `Eimg`: window (0,0) averages 109 inside the
(108,110) band (whole-image average 81) and is confirmed; the paste of its
ring drops the whole-image average to 80, the band falls back to (10,20),
and no later window matches. Case count 1. -/
theorem trace_E : find_cases Eimg = some (I1img, 1) := by
  have hREST : ∀ nm ∈ ([(0, 50), (0, 100), (0, 150), (0, 200),
      (50, 0), (50, 50), (50, 100), (50, 150), (50, 200),
      (100, 0), (100, 50), (100, 100), (100, 150), (100, 200),
      (150, 0), (150, 50), (150, 100), (150, 150), (150, 200),
      (200, 0), (200, 50), (200, 100), (200, 150), (200, 200),
      (250, 0), (250, 50), (250, 100), (250, 150), (250, 200),
      (300, 0), (300, 50), (300, 100), (300, 150), (300, 200)] : List (Nat × Nat)),
      noMatchStrict I1img 80 nm = true := by
    intro nm h
    fin_cases h
    · exact w_0_50.1
    · exact (cmid_I1 0 100 (fun x hx y hy => ⟨by omega, by omega⟩)).1
    · exact (cmid_I1 0 150 (fun x hx y hy => ⟨by omega, by omega⟩)).1
    · exact (cmid_I1 0 200 (fun x hx y hy => ⟨by omega, by omega⟩)).1
    · exact w_50_0.1
    · exact w_50_50.1
    · exact (cmid_I1 50 100 (fun x hx y hy => ⟨by omega, by omega⟩)).1
    · exact (cmid_I1 50 150 (fun x hx y hy => ⟨by omega, by omega⟩)).1
    · exact (cmid_I1 50 200 (fun x hx y hy => ⟨by omega, by omega⟩)).1
    · exact (cmid_I1 100 0 (fun x hx y hy => ⟨by omega, by omega⟩)).1
    · exact (cmid_I1 100 50 (fun x hx y hy => ⟨by omega, by omega⟩)).1
    · exact (cmid_I1 100 100 (fun x hx y hy => ⟨by omega, by omega⟩)).1
    · exact (cmid_I1 100 150 (fun x hx y hy => ⟨by omega, by omega⟩)).1
    · exact (cmid_I1 100 200 (fun x hx y hy => ⟨by omega, by omega⟩)).1
    · exact (cmid_I1 150 0 (fun x hx y hy => ⟨by omega, by omega⟩)).1
    · exact (cmid_I1 150 50 (fun x hx y hy => ⟨by omega, by omega⟩)).1
    · exact (cmid_I1 150 100 (fun x hx y hy => ⟨by omega, by omega⟩)).1
    · exact (cmid_I1 150 150 (fun x hx y hy => ⟨by omega, by omega⟩)).1
    · exact (cmid_I1 150 200 (fun x hx y hy => ⟨by omega, by omega⟩)).1
    · exact (cmid_I1 200 0 (fun x hx y hy => ⟨by omega, by omega⟩)).1
    · exact (cmid_I1 200 50 (fun x hx y hy => ⟨by omega, by omega⟩)).1
    · exact (cmid_I1 200 100 (fun x hx y hy => ⟨by omega, by omega⟩)).1
    · exact (cmid_I1 200 150 (fun x hx y hy => ⟨by omega, by omega⟩)).1
    · exact (cmid_I1 200 200 (fun x hx y hy => ⟨by omega, by omega⟩)).1
    · exact (cmid_I1 250 0 (fun x hx y hy => ⟨by omega, by omega⟩)).1
    · exact (cmid_I1 250 50 (fun x hx y hy => ⟨by omega, by omega⟩)).1
    · exact (cmid_I1 250 100 (fun x hx y hy => ⟨by omega, by omega⟩)).1
    · exact w_250_150.1
    · exact w_250_200.1
    · exact (cmid_I1 300 0 (fun x hx y hy => ⟨by omega, by omega⟩)).1
    · exact (cmid_I1 300 50 (fun x hx y hy => ⟨by omega, by omega⟩)).1
    · exact (cmid_I1 300 100 (fun x hx y hy => ⟨by omega, by omega⟩)).1
    · exact w_300_150.1
    · exact w_300_200
  have hsplit : scanOffsets Eimg.width Eimg.height =
      ((0, 0) : Nat × Nat) :: ([(0, 50), (0, 100), (0, 150), (0, 200),
      (50, 0), (50, 50), (50, 100), (50, 150), (50, 200),
      (100, 0), (100, 50), (100, 100), (100, 150), (100, 200),
      (150, 0), (150, 50), (150, 100), (150, 150), (150, 200),
      (200, 0), (200, 50), (200, 100), (200, 150), (200, 200),
      (250, 0), (250, 50), (250, 100), (250, 150), (250, 200),
      (300, 0), (300, 50), (300, 100), (300, 150), (300, 200)] : List (Nat × Nat)) := by
    decide
  have hstep := find_step_eq_match Eimg 0 ((0, 0) : Nat × Nat) 109 81
    area_E_0_0 Eimg_avg (by decide)
  unfold find_cases
  rw [hsplit, foldlM_opt_cons, hstep, optBind_some]
  exact fold_nomatch I1img 80 I1img_avg _ hREST 1

/-- The hoisted scan of `Eimg`: the whole-image average 81 is computed once,
so the (108,110) band stays in force for every window; window (0,0) and,
over the updated image, window (300,200) both average 109 and are confirmed.
Case count 2. -/
theorem trace_E_hoisted : find_cases_hoisted Eimg = some (FINimg, 2) := by
  have hMID : ∀ nm ∈ ([(0, 50), (0, 100), (0, 150), (0, 200),
      (50, 0), (50, 50), (50, 100), (50, 150), (50, 200),
      (100, 0), (100, 50), (100, 100), (100, 150), (100, 200),
      (150, 0), (150, 50), (150, 100), (150, 150), (150, 200),
      (200, 0), (200, 50), (200, 100), (200, 150), (200, 200),
      (250, 0), (250, 50), (250, 100), (250, 150), (250, 200),
      (300, 0), (300, 50), (300, 100), (300, 150)] : List (Nat × Nat)),
      noMatchStrict I1img 81 nm = true := by
    intro nm h
    fin_cases h
    · exact w_0_50.2
    · exact (cmid_I1 0 100 (fun x hx y hy => ⟨by omega, by omega⟩)).2
    · exact (cmid_I1 0 150 (fun x hx y hy => ⟨by omega, by omega⟩)).2
    · exact (cmid_I1 0 200 (fun x hx y hy => ⟨by omega, by omega⟩)).2
    · exact w_50_0.2
    · exact w_50_50.2
    · exact (cmid_I1 50 100 (fun x hx y hy => ⟨by omega, by omega⟩)).2
    · exact (cmid_I1 50 150 (fun x hx y hy => ⟨by omega, by omega⟩)).2
    · exact (cmid_I1 50 200 (fun x hx y hy => ⟨by omega, by omega⟩)).2
    · exact (cmid_I1 100 0 (fun x hx y hy => ⟨by omega, by omega⟩)).2
    · exact (cmid_I1 100 50 (fun x hx y hy => ⟨by omega, by omega⟩)).2
    · exact (cmid_I1 100 100 (fun x hx y hy => ⟨by omega, by omega⟩)).2
    · exact (cmid_I1 100 150 (fun x hx y hy => ⟨by omega, by omega⟩)).2
    · exact (cmid_I1 100 200 (fun x hx y hy => ⟨by omega, by omega⟩)).2
    · exact (cmid_I1 150 0 (fun x hx y hy => ⟨by omega, by omega⟩)).2
    · exact (cmid_I1 150 50 (fun x hx y hy => ⟨by omega, by omega⟩)).2
    · exact (cmid_I1 150 100 (fun x hx y hy => ⟨by omega, by omega⟩)).2
    · exact (cmid_I1 150 150 (fun x hx y hy => ⟨by omega, by omega⟩)).2
    · exact (cmid_I1 150 200 (fun x hx y hy => ⟨by omega, by omega⟩)).2
    · exact (cmid_I1 200 0 (fun x hx y hy => ⟨by omega, by omega⟩)).2
    · exact (cmid_I1 200 50 (fun x hx y hy => ⟨by omega, by omega⟩)).2
    · exact (cmid_I1 200 100 (fun x hx y hy => ⟨by omega, by omega⟩)).2
    · exact (cmid_I1 200 150 (fun x hx y hy => ⟨by omega, by omega⟩)).2
    · exact (cmid_I1 200 200 (fun x hx y hy => ⟨by omega, by omega⟩)).2
    · exact (cmid_I1 250 0 (fun x hx y hy => ⟨by omega, by omega⟩)).2
    · exact (cmid_I1 250 50 (fun x hx y hy => ⟨by omega, by omega⟩)).2
    · exact (cmid_I1 250 100 (fun x hx y hy => ⟨by omega, by omega⟩)).2
    · exact w_250_150.2
    · exact w_250_200.2
    · exact (cmid_I1 300 0 (fun x hx y hy => ⟨by omega, by omega⟩)).2
    · exact (cmid_I1 300 50 (fun x hx y hy => ⟨by omega, by omega⟩)).2
    · exact (cmid_I1 300 100 (fun x hx y hy => ⟨by omega, by omega⟩)).2
    · exact w_300_150.2
  have hsplit : scanOffsets Eimg.width Eimg.height =
      ((0, 0) : Nat × Nat) :: (([(0, 50), (0, 100), (0, 150), (0, 200),
      (50, 0), (50, 50), (50, 100), (50, 150), (50, 200),
      (100, 0), (100, 50), (100, 100), (100, 150), (100, 200),
      (150, 0), (150, 50), (150, 100), (150, 150), (150, 200),
      (200, 0), (200, 50), (200, 100), (200, 150), (200, 200),
      (250, 0), (250, 50), (250, 100), (250, 150), (250, 200),
      (300, 0), (300, 50), (300, 100), (300, 150)] : List (Nat × Nat)) ++
      [((300, 200) : Nat × Nat)]) := by
    decide
  have hstepH1 := hoist_step_eq_match 81 Eimg 0 ((0, 0) : Nat × Nat) 109
    area_E_0_0 (by decide)
  have hstepH2 := hoist_step_eq_match 81 I1img 1 ((300, 200) : Nat × Nat) 109
    area_I1_300_200 (by decide)
  have htail : List.foldlM (hoist_step 81) ((I1img, 1) : Image × Nat)
      (([(0, 50), (0, 100), (0, 150), (0, 200),
      (50, 0), (50, 50), (50, 100), (50, 150), (50, 200),
      (100, 0), (100, 50), (100, 100), (100, 150), (100, 200),
      (150, 0), (150, 50), (150, 100), (150, 150), (150, 200),
      (200, 0), (200, 50), (200, 100), (200, 150), (200, 200),
      (250, 0), (250, 50), (250, 100), (250, 150), (250, 200),
      (300, 0), (300, 50), (300, 100), (300, 150)] : List (Nat × Nat)) ++
      [((300, 200) : Nat × Nat)]) = some (FINimg, 2) := by
    rw [foldlM_opt_append, fold_nomatch_h I1img 81 _ hMID 1, optBind_some,
      foldlM_opt_cons, hstepH2, optBind_some]
    rfl
  unfold find_cases_hoisted
  rw [Eimg_avg, optBind_some, hsplit, foldlM_opt_cons, hstepH1, optBind_some]
  exact htail

/-- C1 counterexample: per-window recomputation of the whole-image baseline is
not functionally equivalent to hoisting it once. On `Eimg` the per-window scan
confirms one case (the first confirmed ring lowers the recomputed average from
81 to 80, flipping the band to the fallback), while the hoisted scan keeps the
(108,110) band and confirms two. -/
theorem C1_cex_recompute_vs_hoist :
    (find_cases Eimg).map Prod.snd = some 1 ∧
    (find_cases_hoisted Eimg).map Prod.snd = some 2 := by
  rw [trace_E, trace_E_hoisted]
  exact ⟨rfl, rfl⟩
